import Mathlib

/-!
Verification development for the weather data-collection agent
(`src/agent/data_collection_agent.py`).

The agent's decision logic is embedded shallowly:

* JSON values (the payloads produced by `response.json()`) become the
  inductive type `Json`; Python's duck-typed operations on them (`.get`,
  subscripting, `in`, `len`, truthiness, `*`) become partial functions
  returning `Option`, where `none` marks the Python exception the operation
  would raise (AttributeError / KeyError / TypeError).
* The HTTP boundary becomes a `World` oracle mapping the index of each
  outbound request (the value of `summary_metrics['total_requests']` at
  request time) to its outcome.
* Side effects that the claims mention (outbound requests, `time.sleep`
  calls, the attempt log line of the retry loop) are recorded in an event
  trace; the mutable `self.summary_metrics` dict becomes the `Metrics`
  structure threaded through every function.
* Exceptions escaping a method are modelled by an `Option PyErr` component
  of its result, paired with the state as mutated up to the raise point
  (Python mutates `self` in place, so partial updates survive a raise).
-/

namespace WeatherAgent

/-- JSON-like values, as produced by Python's `json` module.  Python `None`
and JSON `null` are the same value (`Json.null`); numbers are modelled as
rationals. -/
inductive Json where
  | null : Json
  | bool : Bool → Json
  | num : ℚ → Json
  | str : String → Json
  | arr : List Json → Json
  | obj : List (String × Json) → Json

/-- The Python exception kinds relevant to the agent.  The agent never
discriminates between them in a handler that matters (inner handlers are
already folded into the `Option`-returning primitives, outer handlers catch
everything), so the constructors are documentation only. -/
inductive PyErr where
  | typeError : PyErr
  | attributeError : PyErr
deriving DecidableEq, Repr

/-- Python `v.get(k, d)` — defined only on dicts; on any other value it
raises AttributeError (`none`). -/
def pyGetD : Json → String → Json → Option Json
  | .obj kvs, k, d => some (((kvs.lookup k)).getD d)
  | _, _, _ => none

/-- Python `v.get(k)` (default `None`). -/
def pyGet1 (v : Json) (k : String) : Option Json :=
  pyGetD v k .null

/-- Python `v[k]` for a string key `k`: KeyError on a dict without the key,
TypeError on any non-dict — both `none` (the agent always catches these two
together). -/
def pySub : Json → String → Option Json
  | .obj kvs, k => kvs.lookup k
  | _, _ => none

/-- Resolving a dotted path (`field.split('.')`) by repeated subscripting,
as in the required-field loop of `_assess_and_log_quality`. -/
def resolvePath : Json → List String → Option Json
  | v, [] => some v
  | v, k :: ks =>
    match pySub v k with
    | some v1 => resolvePath v1 ks
    | none => none

/-- Python `k in v` for a string `k`: key test on dicts, element test on
lists, substring test on strings; TypeError (`none`) on anything else. -/
def pyContains (k : String) : Json → Option Bool
  | .obj kvs => some (kvs.any (fun kv => kv.1 == k))
  | .arr xs => some (xs.any (fun x => match x with | .str s => s == k | _ => false))
  | .str s => some (decide (k.data <:+: s.data))
  | _ => none

/-- Python `len(v)`: TypeError (`none`) on numbers, booleans and `None`. -/
def pyLen : Json → Option ℕ
  | .obj kvs => some kvs.length
  | .arr xs => some xs.length
  | .str s => some s.length
  | _ => none

/-- Python truthiness. -/
def pyTruthy : Json → Bool
  | .null => false
  | .bool b => b
  | .num q => decide (q ≠ 0)
  | .str s => decide (s ≠ "")
  | .arr xs => !xs.isEmpty
  | .obj kvs => !kvs.isEmpty

/-- Python numeric coercion for arithmetic/comparisons: numbers are
numbers, booleans count as 0/1, everything else raises TypeError. -/
def toNum : Json → Option ℚ
  | .num q => some q
  | .bool b => some (if b then 1 else 0)
  | _ => none

/-- Python `v * c` for a float constant `c`: TypeError (`none`) unless `v`
is numeric. -/
def pyMulQ (v : Json) (c : ℚ) : Option ℚ :=
  (toNum v).map (fun x => x * c)

/-- Python `v[0]`: first element of a list, first character of a string
(as a one-character string); KeyError / TypeError (`none`) otherwise.
(An empty list would raise IndexError, also `none`; the agent only indexes
after a truthiness guard.) -/
def pyIndex0 : Json → Option Json
  | .arr (x :: _) => some x
  | .str s =>
    match s.data with
    | c :: _ => some (.str (String.mk [c]))
    | [] => none
  | _ => none

mutual

/-- Python `str(v)` / f-string interpolation of a value.  String content and
the `None`/`True`/`False` spellings match Python; the rendering of numbers
and of nested lists/dicts is a simplification (Python prints floats and
reprs), which no theorem below depends on — issue strings are only ever
compared for their fixed prefixes and the interpolated city/api names. -/
def pyStr : Json → String
  | .null => "None"
  | .bool true => "True"
  | .bool false => "False"
  | .num q => if q.den = 1 then toString q.num else toString q.num ++ "/" ++ toString q.den
  | .str s => s
  | .arr xs => "[" ++ pyStrList xs ++ "]"
  | .obj kvs => "\x7b" ++ pyStrObj kvs ++ "\x7d"

def pyStrList : List Json → String
  | [] => ""
  | [x] => pyStr x
  | x :: xs => pyStr x ++ ", " ++ pyStrList xs

def pyStrObj : List (String × Json) → String
  | [] => ""
  | [kv] => kv.1 ++ ": " ++ pyStr kv.2
  | kv :: kvs => kv.1 ++ ": " ++ pyStr kv.2 ++ ", " ++ pyStrObj kvs

end

/-- Floor of a rational, computed by floor division of numerator by
denominator (the denominator of a `Rat` is positive). -/
def qfloor (q : ℚ) : ℤ :=
  Int.fdiv q.num (q.den : ℤ)

/-- Python `round(x, 2)` on the rational model of floats: scale by 100 and
round half to even. -/
def pyRound2 (q : ℚ) : ℚ :=
  let x := q * 100
  let f : ℤ := qfloor x
  let r := x - f
  let n : ℤ :=
    if r < 1/2 then f
    else if 1/2 < r then f + 1
    else if f % 2 = 0 then f else f + 1
  (n : ℚ) / 100

/-! ## Data model -/

/-- The `COLLECTION_SETTINGS` block of `config.json`, as the agent reads it.
Field names keep the configuration keys. -/
structure Settings where
  CITIES : List String
  MAX_RETRIES : ℕ
  RESPECTFUL_DELAY_SECONDS : ℚ
  API_PRIORITY : List String

/-- `self.summary_metrics`, the run-wide accumulator. -/
structure Metrics where
  total_requests : ℕ
  successful_requests : ℕ
  failures : ℕ
  data_points_collected : ℕ
  owm_success : ℕ
  wapi_success : ℕ
  total_quality_score : ℕ
  issues : List String

/-- The all-zero metrics the constructor builds. -/
def initMetrics : Metrics :=
  ⟨0, 0, 0, 0, 0, 0, 0, []⟩

/-- Outcome of one outbound HTTP request: a status code together with the
result of `response.json()` (`none` when the body is unparseable, which in
Python raises inside the 200-branch), or a transport exception. -/
inductive HttpResult where
  | resp : ℕ → Option Json → HttpResult
  | exn : HttpResult

/-- The HTTP world: the outcome of the n-th outbound request of the run,
indexed by the value of `summary_metrics['total_requests']` at the moment
the request is issued (every request increments that counter by one, so
indices are consumed consecutively). -/
def World : Type := ℕ → HttpResult

/-- Did this endpoint call succeed in the sense of the agent
(HTTP 200 and a parseable body)? -/
def isOk200 : HttpResult → Bool
  | .resp status (some _) => status == 200
  | _ => false

/-- Observable side effects of the collection loop: outbound requests,
`time.sleep` calls, and the `Attempt k+1/MAX for city` log line that opens
each pass of the retry loop (recorded with the 0-based Python loop index
`k`). -/
inductive Event where
  | request : String → String → Event
  | sleep : ℚ → Event
  | attemptLog : ℕ → ℕ → String → Event
deriving DecidableEq, Repr

/-- A raw record as appended to `self.raw_data`: the dict
`{'api': …, 'city': …, 'data': …}` built by a fetch helper, plus the
`quality_score` key that `_assess_and_log_quality` attaches in place. -/
structure RawRecord where
  api : String
  city : String
  data : Json
  quality_score : Option ℕ

/-- The flat dict built by `_process_raw_data`.  `Json.null` stands for
Python `None`; `quality_score` is `Json` because the code stores either an
int, the string `'N/A'`, or a forced 0 there. -/
structure ProcessedRecord where
  city : String
  collection_timestamp : String
  source_api : String
  quality_score : Json
  current_temp_c : Json
  current_humidity_p : Json
  current_wind_speed_m_s : Json
  forecast_summary : Json

/-! ## SourceClient: `_fetch_owm_data` and `_fetch_wapi_data` -/

/-- One iteration of the endpoint loop of `_fetch_owm_data`: count the
request, consult the world, on 200-with-parseable-body store the section
and bump `owm_success`, and always sleep the respectful delay afterwards.
State: accumulated sections (Python dict in insertion order) and the
`overall_success` flag. -/
def fetchOwmEndpoint (delay : ℚ) (world : World) (m : Metrics) (name : String)
    (st : List (String × Json) × Bool) :
    Metrics × (List (String × Json) × Bool) × List Event :=
  let m1 := { m with total_requests := m.total_requests + 1 }
  let evs := [Event.request "OpenWeatherMap" name, Event.sleep delay]
  match world m.total_requests with
  | .exn => (m1, st, evs)
  | .resp status body? =>
    if status = 200 then
      match body? with
      | some body =>
        ({ m1 with owm_success := m1.owm_success + 1 }, (st.1 ++ [(name, body)], true), evs)
      | none => (m1, st, evs)
    else (m1, st, evs)

/-- `_fetch_owm_data`: two endpoint calls (`current`, then `forecast`),
returning a record iff at least one succeeded. -/
def fetchOwmData (delay : ℚ) (world : World) (m : Metrics) (city : String) :
    Metrics × Option RawRecord × List Event :=
  let r1 := fetchOwmEndpoint delay world m "current" ([], false)
  let r2 := fetchOwmEndpoint delay world r1.1 "forecast" r1.2.1
  if r2.2.1.2 then
    (r2.1, some ⟨"OpenWeatherMap", city, .obj r2.2.1.1, none⟩, r1.2.2 ++ r2.2.2)
  else
    (r2.1, none, r1.2.2 ++ r2.2.2)

/-- `_fetch_wapi_data`: a single endpoint call and no sleep.  Note the
faithful wart: `wapi_success` is incremented before `response.json()` is
evaluated, so a 200 with an unparseable body still counts as a WAPI
success while the fetch returns `None`. -/
def fetchWapiData (world : World) (m : Metrics) (city : String) :
    Metrics × Option RawRecord × List Event :=
  let m1 := { m with total_requests := m.total_requests + 1 }
  let evs := [Event.request "WeatherAPI" "forecast"]
  match world m.total_requests with
  | .exn => (m1, none, evs)
  | .resp status body? =>
    if status = 200 then
      let m2 := { m1 with wapi_success := m1.wapi_success + 1 }
      match body? with
      | some body => (m2, some ⟨"WeatherAPI", city, body, none⟩, evs)
      | none => (m2, none, evs)
    else (m1, none, evs)

/-- The body of the API-priority dispatch inside `collect_data`: names not
matching either branch leave `data` untouched (it is still `None` at that
point). -/
def tryApi (delay : ℚ) (world : World) (m : Metrics) (city apiName : String) :
    Metrics × Option RawRecord × List Event :=
  if apiName = "OpenWeatherMap" then fetchOwmData delay world m city
  else if apiName = "WeatherAPI" then fetchWapiData world m city
  else (m, none, [])

/-- One pass over `API_PRIORITY`: stop at the first non-`None` result,
incrementing `successful_requests` there (the `if data: … break` inside the
API loop). -/
def apiPass (delay : ℚ) (world : World) (m : Metrics) (city : String) :
    List String → Metrics × Option RawRecord × List Event
  | [] => (m, none, [])
  | api :: rest =>
    let r1 := tryApi delay world m city api
    match r1.2.1 with
    | some rec =>
      ({ r1.1 with successful_requests := r1.1.successful_requests + 1 }, some rec, r1.2.2)
    | none =>
      let r2 := apiPass delay world r1.1 city rest
      (r2.1, r2.2.1, r1.2.2 ++ r2.2.2)

/-! ## RetryOrchestrator: the retry loop of `collect_data` -/

/-- The retry loop `for attempt in range(MAX_RETRIES)` for one city,
written with the remaining iteration count as fuel (`attempt + fuel =
MAX_RETRIES` at every call from `collectCity`).  Each iteration logs the
attempt, runs one API-priority pass, breaks on data, and otherwise sleeps
`RESPECTFUL_DELAY_SECONDS * 2 ** attempt` — but only when
`attempt < MAX_RETRIES - 1`. -/
def retryLoop (cfg : Settings) (world : World) (city : String) (m : Metrics) :
    ℕ → ℕ → Metrics × Option RawRecord × List Event
  | _, 0 => (m, none, [])
  | attempt, fuel + 1 =>
    let e0 := Event.attemptLog attempt cfg.MAX_RETRIES city
    let r1 := apiPass cfg.RESPECTFUL_DELAY_SECONDS world m city cfg.API_PRIORITY
    match r1.2.1 with
    | some rec => (r1.1, some rec, e0 :: r1.2.2)
    | none =>
      if attempt < cfg.MAX_RETRIES - 1 then
        let delay := cfg.RESPECTFUL_DELAY_SECONDS * 2 ^ attempt
        let r2 := retryLoop cfg world city r1.1 (attempt + 1) fuel
        (r2.1, r2.2.1, e0 :: r1.2.2 ++ Event.sleep delay :: r2.2.2)
      else
        let r2 := retryLoop cfg world city r1.1 (attempt + 1) fuel
        (r2.1, r2.2.1, e0 :: r1.2.2 ++ r2.2.2)

/-- Collection for one city: the whole retry loop, started at attempt 0. -/
def collectCity (cfg : Settings) (world : World) (m : Metrics) (city : String) :
    Metrics × Option RawRecord × List Event :=
  retryLoop cfg world city m 0 cfg.MAX_RETRIES

/-! ## QualityAssessor: `_assess_and_log_quality` -/

/-- The forecast-completeness test
`'forecast' not in data or len(data.get('forecast', {}).get(listKey, [])) < threshold`,
with Python's lazy `or` and every raise point preserved (`none` = the
expression raises, which propagates out of the method). -/
def forecastIncomplete (listKey : String) (threshold : ℕ) (data : Json) : Option Bool :=
  match pyContains "forecast" data with
  | none => none
  | some false => some true
  | some true =>
    match pyGetD data "forecast" (.obj []) with
    | none => none
    | some f =>
      match pyGetD f listKey (.arr []) with
      | none => none
      | some l =>
        match pyLen l with
        | none => none
        | some n => some (decide (n < threshold))

/-- The per-API required-field dotted paths (`field.split('.')` applied to
the `required_fields` lists of the source). -/
def requiredFields : String → List (List String)
  | "OpenWeatherMap" =>
    [["current", "main", "temp"], ["current", "main", "humidity"],
     ["current", "wind", "speed"]]
  | "WeatherAPI" =>
    [["current", "temp_c"], ["current", "humidity"], ["current", "wind_kph"]]
  | _ => []

/-- The per-API forecast-completeness check; an unrecognized api string
runs no check (and no required fields). -/
def forecastCheckOf (api : String) (data : Json) : Option Bool :=
  if api = "OpenWeatherMap" then forecastIncomplete "list" 30 data
  else if api = "WeatherAPI" then forecastIncomplete "forecastday" 5 data
  else some false

/-- The mandatory-field loop: resolve each dotted path; count a data point
on success, add 5 to the deduction on KeyError/TypeError. -/
def checkFields (m : Metrics) (data : Json) : List (List String) → Metrics × ℤ
  | [] => (m, 0)
  | p :: ps =>
    match resolvePath data p with
    | some _ =>
      checkFields
        { m with data_points_collected := m.data_points_collected + 1 } data ps
    | none =>
      let r := checkFields m data ps
      (r.1, r.2 + 5)

/-- The safe `.get`-chain extraction of the current temperature used by the
validity check (`none` = the chain raised AttributeError, caught by the
surrounding `except Exception: pass`). -/
def tempValueOf (api : String) (data : Json) : Option Json :=
  if api = "OpenWeatherMap" then
    match pyGetD data "current" (.obj []) with
    | none => none
    | some c =>
      match pyGetD c "main" (.obj []) with
      | none => none
      | some mn => pyGet1 mn "temp"
  else if api = "WeatherAPI" then
    match pyGetD data "current" (.obj []) with
    | none => none
    | some c => pyGet1 c "temp_c"
  else some .null

/-- The validity check: `some v` exactly when the suspect-temperature
deduction fires, carrying the raw extracted value `v` (interpolated into
the issue string).  Exceptions anywhere inside — including a TypeError from
comparing a non-number — are swallowed by the `except Exception: pass`. -/
def suspectTemp (api : String) (data : Json) : Option Json :=
  match tempValueOf api data with
  | none => none
  | some .null => none
  | some v =>
    match toNum v with
    | none => none
    | some t => if t < -70 ∨ 50 < t then some v else none

/-- The issue string `f"Suspect Temp in {city} ({api}): {temp_value}C"`. -/
def suspectMsg (city api : String) (v : Json) : String :=
  "Suspect Temp in " ++ city ++ " (" ++ api ++ "): " ++ pyStr v ++ "C"

/-- The body of `_assess_and_log_quality` up to (and excluding) the final
clamp: returns the metrics as mutated so far together with the signed
`completeness_score`, or `none` when the forecast-completeness expression
raises (the only uncaught raise point of the method, reached before any
metric is touched). -/
def assessCore (m : Metrics) (r : RawRecord) : Option (Metrics × ℤ) :=
  match forecastCheckOf r.api r.data with
  | none => none
  | some inc =>
    let d1 : ℤ := if inc then 20 else 0
    let fc := checkFields m r.data (requiredFields r.api)
    match suspectTemp r.api r.data with
    | some v =>
      some ({ fc.1 with issues := fc.1.issues ++ [suspectMsg r.city r.api v] },
            100 - d1 - fc.2 - 10)
    | none => some (fc.1, 100 - d1 - fc.2)

/-- `_assess_and_log_quality`: on completion the record gains
`quality_score = max(0, completeness_score)` and the metrics gain its value
in `total_quality_score`; on a raise the method leaves record and metrics
as they were (the raise happens before any mutation). -/
def assessQuality (m : Metrics) (r : RawRecord) : Metrics × RawRecord × Option PyErr :=
  match assessCore m r with
  | none => (m, r, some .typeError)
  | some (m1, c) =>
    let score : ℕ := (max 0 c).toNat
    ({ m1 with total_quality_score := m1.total_quality_score + score },
     { r with quality_score := some score }, none)

/-! ## Normalizer: `_process_raw_data` -/

/-- The OpenWeatherMap arm of the `try` block of `_process_raw_data`.
Returns the record as updated up to the first raise point together with a
flag saying whether the body raised (each `none` of a primitive is the
exception the corresponding Python expression raises; fields already
assigned survive, exactly as with in-place dict mutation). -/
def owmBranch (data : Json) (p : ProcessedRecord) : ProcessedRecord × Bool :=
  match pyGetD data "current" (.obj []) with
  | none => (p, true)
  | some current =>
    match pyGetD current "main" (.obj []), pyGetD current "wind" (.obj []) with
    | some main, some wind =>
      (match pyGet1 main "temp" with
       | none => (p, true)
       | some tv =>
         let p1 := { p with current_temp_c := tv }
         match pyGet1 main "humidity" with
         | none => (p1, true)
         | some hv =>
           let p2 := { p1 with current_humidity_p := hv }
           match pyGet1 wind "speed" with
           | none => (p2, true)
           | some sv =>
             let p3 := { p2 with current_wind_speed_m_s := sv }
             match pyGetD data "forecast" (.obj []) with
             | none => (p3, true)
             | some fv =>
               match pyGetD fv "list" (.arr []) with
               | none => (p3, true)
               | some fl =>
                 if pyTruthy fl then
                   match pyIndex0 fl with
                   | none => (p3, true)
                   | some first =>
                     match pyGet1 first "dt_txt" with
                     | none => (p3, true)
                     | some dt =>
                       ({ p3 with forecast_summary :=
                           Json.str ("3-hour steps starting " ++ pyStr dt) }, false)
                 else (p3, false))
    | _, _ => (p, true)

/-- The WeatherAPI arm of the `try` block of `_process_raw_data`, with the
kph → m/s wind conversion `round(wind_kph * 0.277778, 2)`. -/
def wapiBranch (data : Json) (p : ProcessedRecord) : ProcessedRecord × Bool :=
  match pyGetD data "current" (.obj []) with
  | none => (p, true)
  | some current =>
    match pyGet1 current "temp_c" with
    | none => (p, true)
    | some tv =>
      let p1 := { p with current_temp_c := tv }
      match pyGet1 current "humidity" with
      | none => (p1, true)
      | some hv =>
        let p2 := { p1 with current_humidity_p := hv }
        match pyGet1 current "wind_kph" with
        | none => (p2, true)
        | some kph =>
          let step :=
            match kph with
            | .null => some p2
            | v =>
              match pyMulQ v 0.277778 with
              | none => none
              | some prod =>
                some { p2 with current_wind_speed_m_s := .num (pyRound2 prod) }
          match step with
          | none => (p2, true)
          | some p3 =>
            match pyGetD data "forecast" (.obj []) with
            | none => (p3, true)
            | some fv =>
              match pyGetD fv "forecastday" (.arr []) with
              | none => (p3, true)
              | some fd =>
                if pyTruthy fd then
                  match pyIndex0 fd with
                  | none => (p3, true)
                  | some first =>
                    match pyGet1 first "date" with
                    | none => (p3, true)
                    | some d =>
                      ({ p3 with forecast_summary :=
                          Json.str ("5-day forecast starting " ++ pyStr d) }, false)
                else (p3, false)

/-- Dispatch on `record['api']` inside the `try`; an unrecognized api skips
both arms and cannot raise. -/
def branchBody (api : String) (data : Json) (p : ProcessedRecord) :
    ProcessedRecord × Bool :=
  if api = "OpenWeatherMap" then owmBranch data p
  else if api = "WeatherAPI" then wapiBranch data p
  else (p, false)

/-- `_process_raw_data` with the raise flag exposed: build the initial flat
dict (`quality_score` is the attached score or the string `'N/A'`), run the
`try` body, and on an exception force `quality_score` to 0, keeping every
field assigned before the raise.  The function is total — the method never
propagates an error. -/
def processRawAux (ts : String) (r : RawRecord) : ProcessedRecord × Bool :=
  let init : ProcessedRecord :=
    { city := r.city
      collection_timestamp := ts
      source_api := r.api
      quality_score :=
        match r.quality_score with
        | some n => .num n
        | none => .str "N/A"
      current_temp_c := .null
      current_humidity_p := .null
      current_wind_speed_m_s := .null
      forecast_summary := .null }
  let res := branchBody r.api r.data init
  if res.2 then ({ res.1 with quality_score := .num 0 }, true) else (res.1, false)

/-- `_process_raw_data` as its caller sees it. -/
def processRawData (ts : String) (r : RawRecord) : ProcessedRecord :=
  (processRawAux ts r).1

/-! ## CollectionRun: `collect_data` and `run_agent` -/

/-- The mutable state of the agent that `collect_data` touches. -/
structure CState where
  metrics : Metrics
  raw_data : List RawRecord
  processed_data : List ProcessedRecord
  trace : List Event

/-- The fresh state built by `__init__`. -/
def initState : CState :=
  ⟨initMetrics, [], [], []⟩

/-- The issue string recorded for an exhausted city. -/
def hardFailureMsg (city : String) (maxRetries : ℕ) : String :=
  "Hard failure for " ++ city ++ " after " ++ toString maxRetries ++ " attempts."

/-- One iteration of the city loop of `collect_data`: run the retry loop;
on data, append the raw record (the same object `_assess_and_log_quality`
then mutates, so the appended record carries the score), assess, and —
when assessment completes — append the processed record; on no data,
bump `failures` and record the hard-failure issue.  An exception escaping
assessment aborts the iteration with the state as mutated so far. -/
def collectStep (cfg : Settings) (world : World) (ts : String)
    (st : CState) (city : String) : CState × Option PyErr :=
  let r1 := collectCity cfg world st.metrics city
  match r1.2.1 with
  | some rec =>
    match assessQuality r1.1 rec with
    | (m2, rec2, none) =>
      ({ metrics := m2
         raw_data := st.raw_data ++ [rec2]
         processed_data := st.processed_data ++ [processRawData ts rec2]
         trace := st.trace ++ r1.2.2 }, none)
    | (m2, rec2, some e) =>
      ({ metrics := m2
         raw_data := st.raw_data ++ [rec2]
         processed_data := st.processed_data
         trace := st.trace ++ r1.2.2 }, some e)
  | none =>
    ({ st with
        metrics :=
          { r1.1 with
            failures := r1.1.failures + 1
            issues := r1.1.issues ++ [hardFailureMsg city cfg.MAX_RETRIES] }
        trace := st.trace ++ r1.2.2 }, none)

/-- `collect_data`: the city loop.  An uncaught exception stops the loop
and propagates with the partial state. -/
def collectData (cfg : Settings) (world : World) (ts : String) :
    CState → List String → CState × Option PyErr
  | st, [] => (st, none)
  | st, c :: cs =>
    match collectStep cfg world ts st c with
    | (st1, none) => collectData cfg world ts st1 cs
    | (st1, some e) => (st1, some e)

/-- The downstream calls `run_agent` makes after (or despite) collection.
Their bodies are file I/O and templating, outside the modelled core; only
which of them are attempted matters. -/
inductive Phase where
  | saveData : Phase
  | metadata : Phase
  | qualityReport : Phase
  | summary : Phase
  | criticalLog : Phase
deriving DecidableEq, Repr

/-- The issue string the crash handler appends. -/
def criticalMsg (e : PyErr) : String :=
  "CRITICAL: Agent crash at runtime: " ++
    (match e with
     | .typeError => "TypeError"
     | .attributeError => "AttributeError")

/-- `run_agent`: the happy path runs save, metadata, and both reports; the
crash handler logs critical, appends the issue, and re-runs only the two
report generators on the partial state. -/
def runAgent (cfg : Settings) (world : World) (ts : String) : CState × List Phase :=
  match collectData cfg world ts initState cfg.CITIES with
  | (st, none) =>
    (st, [Phase.saveData, Phase.metadata, Phase.qualityReport, Phase.summary])
  | (st, some e) =>
    ({ st with metrics :=
        { st.metrics with issues := st.metrics.issues ++ [criticalMsg e] } },
     [Phase.criticalLog, Phase.qualityReport, Phase.summary])

/-! ## Helper lemmas -/

/-- `qfloor` agrees with the mathematical floor. -/
theorem qfloor_eq_floor (q : ℚ) : qfloor q = ⌊q⌋ := by
  rw [Rat.floor_def, qfloor]
  rw [Int.fdiv_eq_ediv _ (by positivity)]

/-- The `try` body of `_process_raw_data` never touches the
`quality_score` field; only the exception handler does. -/
theorem branchBody_quality_score (api : String) (data : Json) (p : ProcessedRecord) :
    ((branchBody api data p).1).quality_score = p.quality_score := by
  unfold branchBody owmBranch wapiBranch
  repeat' split
  all_goals rfl

/-! ## Claims -/

/-- C8: wind-speed normalization for the kph-reporting source (WeatherAPI)
multiplies by 0.277778 and rounds to 2 decimals (Python's round-half-even);
in particular an input wind speed of 36.0 kph yields exactly 10.0 m/s in
the canonical record.  The first conjunct states the formula for every
rational wind speed `k`, the second evaluates the claimed instance. -/
theorem C8_wind_conversion :
    (∀ (ts city : String) (qs : Option ℕ) (k : ℚ),
      (processRawData ts
          ⟨"WeatherAPI", city, .obj [("current", .obj [("wind_kph", .num k)])], qs⟩
        ).current_wind_speed_m_s = .num (pyRound2 (k * 0.277778))) ∧
    (processRawData "t0"
        ⟨"WeatherAPI", "Paris", .obj [("current", .obj [("wind_kph", .num 36)])], none⟩
      ).current_wind_speed_m_s = .num 10 := by
  constructor
  · intro ts city qs k
    rfl
  · show Json.num (pyRound2 (36 * 0.277778)) = Json.num 10
    norm_num [pyRound2, qfloor_eq_floor]

/-- C10: invoking `_process_raw_data` on a record that carries no
`quality_score` key yields a processed record whose `quality_score` is the
string `'N/A'`, unless an exception during field mapping forces it to 0 —
formalized with the raise flag of `processRawAux`: the resulting score is
`'N/A'` exactly when no exception occurred, and 0 exactly when one did. -/
theorem C10_na_quality_score (ts : String) (r : RawRecord)
    (h : r.quality_score = none) :
    (processRawAux ts r).1.quality_score =
      (if (processRawAux ts r).2 then Json.num 0 else Json.str "N/A") := by
  unfold processRawAux
  simp only [h]
  split
  next heq => simp
  next heq => simp [branchBody_quality_score]

/-- Witness for C10 at a concrete record without a score: the OpenWeatherMap
record with empty data does not raise, so the score is `'N/A'`. -/
theorem C10_na_quality_score_witness :
    (processRawAux "t0" ⟨"OpenWeatherMap", "X", .obj [], none⟩).1.quality_score =
      (if (processRawAux "t0" ⟨"OpenWeatherMap", "X", .obj [], none⟩).2 then Json.num 0
       else Json.str "N/A") :=
  C10_na_quality_score "t0" ⟨"OpenWeatherMap", "X", .obj [], none⟩ rfl

/-- C2 counterexample: the claim asserts that a payload whose data sections
are all empty yields `quality_score` forced to 0.  On the concrete
all-empty OpenWeatherMap payload (no attached score) the normalizer raises
nothing and leaves `quality_score` as the string `'N/A'`, which is not 0;
with an attached score it would keep that score.  So the "forced to 0"
conjunct of the claim is false. -/
theorem C2_counterexample :
    (processRawData "t0" ⟨"OpenWeatherMap", "X", .obj [], none⟩).quality_score =
        Json.str "N/A" ∧
      Json.str "N/A" ≠ Json.num 0 := by
  exact ⟨rfl, fun h => Json.noConfusion h⟩

/-- C2 amended: the normalizer is total (it never propagates an error, by
construction of `processRawAux`), and on a payload whose data sections are
all empty — the empty dict, or both sections present but empty — every
optional field is unset and no exception occurs, so `quality_score` is the
previously attached score, or `'N/A'` when none was attached; it is *not*
forced to 0. -/
theorem C2_amended :
    (∀ (ts api city : String) (qs : Option ℕ)
        (data : Json), (data = .obj [] ∨
          data = .obj [("current", .obj []), ("forecast", .obj [])]) →
      (processRawAux ts ⟨api, city, data, qs⟩).2 = false ∧
      (processRawAux ts ⟨api, city, data, qs⟩).1.current_temp_c = .null ∧
      (processRawAux ts ⟨api, city, data, qs⟩).1.current_humidity_p = .null ∧
      (processRawAux ts ⟨api, city, data, qs⟩).1.current_wind_speed_m_s = .null ∧
      (processRawAux ts ⟨api, city, data, qs⟩).1.forecast_summary = .null ∧
      (processRawAux ts ⟨api, city, data, qs⟩).1.quality_score =
        (match qs with
         | some n => Json.num n
         | none => Json.str "N/A")) := by
  intro ts api city qs data hdata
  by_cases h1 : api = "OpenWeatherMap"
  · rcases hdata with h | h <;> subst h <;> subst h1 <;>
      simp [processRawAux, branchBody, owmBranch, pyGetD, pyGet1, pyTruthy,
        List.lookup]
  · by_cases h2 : api = "WeatherAPI"
    · rcases hdata with h | h <;> subst h <;> subst h2 <;>
        simp [processRawAux, branchBody, wapiBranch, pyGetD, pyGet1, pyTruthy,
          List.lookup]
    · rcases hdata with h | h <;> subst h <;>
        simp [processRawAux, branchBody, h1, h2]

/-- Witness for C2's amended statement at a concrete empty payload. -/
theorem C2_amended_witness :
    (processRawAux "t0" ⟨"WeatherAPI", "X", .obj [], some 65⟩).2 = false ∧
      (processRawAux "t0" ⟨"WeatherAPI", "X", .obj [], some 65⟩).1.current_temp_c = .null ∧
      (processRawAux "t0" ⟨"WeatherAPI", "X", .obj [], some 65⟩).1.current_humidity_p = .null ∧
      (processRawAux "t0" ⟨"WeatherAPI", "X", .obj [], some 65⟩).1.current_wind_speed_m_s = .null ∧
      (processRawAux "t0" ⟨"WeatherAPI", "X", .obj [], some 65⟩).1.forecast_summary = .null ∧
      (processRawAux "t0" ⟨"WeatherAPI", "X", .obj [], some 65⟩).1.quality_score =
        (match (some 65 : Option ℕ) with
         | some n => Json.num n
         | none => Json.str "N/A") :=
  C2_amended "t0" "WeatherAPI" "X" (some 65) (.obj []) (Or.inl rfl)

/-- The field-loop deduction is non-negative. -/
theorem checkFields_nonneg (data : Json) :
    ∀ (ps : List (List String)) (m : Metrics), 0 ≤ (checkFields m data ps).2 := by
  intro ps
  induction ps with
  | nil => intro m; simp [checkFields]
  | cons p ps ih =>
    intro m
    unfold checkFields
    cases h : resolvePath data p with
    | some v => simpa using ih _
    | none =>
      have := ih m
      simp only []
      omega

/-- The field-loop deduction is at most 5 per required field. -/
theorem checkFields_le (data : Json) :
    ∀ (ps : List (List String)) (m : Metrics),
      (checkFields m data ps).2 ≤ 5 * ps.length := by
  intro ps
  induction ps with
  | nil => intro m; simp [checkFields]
  | cons p ps ih =>
    intro m
    unfold checkFields
    cases h : resolvePath data p with
    | some v =>
      have := ih { m with data_points_collected := m.data_points_collected + 1 }
      simp only [List.length_cons]
      push_cast
      omega
    | none =>
      have := ih m
      simp only [List.length_cons]
      push_cast
      omega

/-- Every required-field list has at most three entries. -/
theorem requiredFields_length_le (api : String) :
    (requiredFields api).length ≤ 3 := by
  unfold requiredFields
  split <;> simp

/-- `assessCore` never returns a completeness score above 100 (the score
starts at 100 and only deductions are applied). -/
theorem assessCore_le_100 (m : Metrics) (r : RawRecord) (p : Metrics × ℤ)
    (h : assessCore m r = some p) : p.2 ≤ 100 := by
  unfold assessCore at h
  cases hfc : forecastCheckOf r.api r.data with
  | none => rw [hfc] at h; cases h
  | some inc =>
    rw [hfc] at h
    have hd2 := checkFields_nonneg r.data (requiredFields r.api) m
    cases hst : suspectTemp r.api r.data with
    | some v =>
      rw [hst] at h
      simp only [Option.some.injEq] at h
      subst h
      by_cases hinc : inc <;> simp [hinc] <;> omega
    | none =>
      rw [hst] at h
      simp only [Option.some.injEq] at h
      subst h
      by_cases hinc : inc <;> simp [hinc] <;> omega

/-- C6: when `_assess_and_log_quality` completes, the score it attaches is
an integer in [0, 100] (it is a natural number, so 0 ≤ s holds by type);
moreover on payloads with entirely missing sections — the empty data dict,
for either source — assessment does complete, attaching 65 (−20 forecast,
−3×5 required fields). -/
theorem C6_score_in_range :
    (∀ (m : Metrics) (r : RawRecord) (m1 : Metrics) (r1 : RawRecord),
      assessQuality m r = (m1, r1, none) →
      ∃ s : ℕ, r1.quality_score = some s ∧ s ≤ 100) ∧
    (assessQuality initMetrics ⟨"OpenWeatherMap", "X", .obj [], none⟩).2.2 = none ∧
    (assessQuality initMetrics ⟨"OpenWeatherMap", "X", .obj [], none⟩).2.1.quality_score
      = some 65 ∧
    (assessQuality initMetrics ⟨"WeatherAPI", "X", .obj [], none⟩).2.2 = none ∧
    (assessQuality initMetrics ⟨"WeatherAPI", "X", .obj [], none⟩).2.1.quality_score
      = some 65 := by
  refine ⟨?_, rfl, rfl, rfl, rfl⟩
  intro m r m1 r1 h
  unfold assessQuality at h
  cases hc : assessCore m r with
  | none => rw [hc] at h; simp at h
  | some p =>
    rw [hc] at h
    have hle := assessCore_le_100 m r p hc
    simp only [Prod.mk.injEq] at h
    obtain ⟨-, hr, -⟩ := h
    refine ⟨(max 0 p.2).toNat, ?_, ?_⟩
    · rw [← hr]
    · omega

/-- Witness for the universally quantified part of C6, at the concrete
all-empty OpenWeatherMap payload. -/
theorem C6_score_in_range_witness :
    ∃ s : ℕ,
      (assessQuality initMetrics ⟨"OpenWeatherMap", "X", .obj [], none⟩).2.1.quality_score
          = some s ∧
        s ≤ 100 :=
  C6_score_in_range.1 initMetrics ⟨"OpenWeatherMap", "X", .obj [], none⟩
    (assessQuality initMetrics ⟨"OpenWeatherMap", "X", .obj [], none⟩).1
    (assessQuality initMetrics ⟨"OpenWeatherMap", "X", .obj [], none⟩).2.1 rfl

/-- If the OpenWeatherMap safe `.get`-chain extracts a non-`None` current
temperature, then the dotted-path subscripting of the required-field loop
resolves the same value: the `.get` chain returns non-`None` only when
every level is a dict carrying the key. -/
theorem tempValueOf_owm_resolve (data v : Json)
    (h : tempValueOf "OpenWeatherMap" data = some v) (hv : v ≠ .null) :
    resolvePath data ["current", "main", "temp"] = some v := by
  unfold tempValueOf at h
  rw [if_pos rfl] at h
  cases data with
  | obj kvs =>
    simp only [pyGetD] at h
    cases hcur : kvs.lookup "current" with
    | none =>
      exfalso
      apply hv
      rw [hcur] at h
      simp [pyGetD, pyGet1, List.lookup] at h
      exact h.symm
    | some x =>
      rw [hcur] at h
      cases x with
      | obj kvs2 =>
        simp only [Option.getD_some, pyGetD] at h
        cases hm : kvs2.lookup "main" with
        | none =>
          exfalso
          apply hv
          rw [hm] at h
          simp [pyGet1, pyGetD, List.lookup] at h
          exact h.symm
        | some y =>
          rw [hm] at h
          cases y with
          | obj kvs3 =>
            simp only [Option.getD_some, pyGet1, pyGetD, Option.some.injEq] at h
            simp only [resolvePath, pySub, hcur, hm]
            cases ht : kvs3.lookup "temp" with
            | none =>
              exfalso
              apply hv
              rw [ht] at h
              simpa using h.symm
            | some t =>
              rw [ht] at h
              simpa using h
          | null => simp [pyGet1, pyGetD] at h
          | bool b => simp [pyGet1, pyGetD] at h
          | num q => simp [pyGet1, pyGetD] at h
          | str s => simp [pyGet1, pyGetD] at h
          | arr xs => simp [pyGet1, pyGetD] at h
      | null => simp [pyGetD] at h
      | bool b => simp [pyGetD] at h
      | num q => simp [pyGetD] at h
      | str s => simp [pyGetD] at h
      | arr xs => simp [pyGetD] at h
  | null => simp [pyGetD] at h
  | bool b => simp [pyGetD] at h
  | num q => simp [pyGetD] at h
  | str s => simp [pyGetD] at h
  | arr xs => simp [pyGetD] at h


/-- WeatherAPI analogue of `tempValueOf_owm_resolve`. -/
theorem tempValueOf_wapi_resolve (data v : Json)
    (h : tempValueOf "WeatherAPI" data = some v) (hv : v ≠ .null) :
    resolvePath data ["current", "temp_c"] = some v := by
  unfold tempValueOf at h
  rw [if_neg (by decide), if_pos rfl] at h
  cases data with
  | obj kvs =>
    simp only [pyGetD] at h
    cases hcur : kvs.lookup "current" with
    | none =>
      exfalso
      apply hv
      rw [hcur] at h
      simp [pyGet1, pyGetD, List.lookup] at h
      exact h.symm
    | some x =>
      rw [hcur] at h
      cases x with
      | obj kvs2 =>
        simp only [Option.getD_some, pyGet1, pyGetD, Option.some.injEq] at h
        simp only [resolvePath, pySub, hcur]
        cases ht : kvs2.lookup "temp_c" with
        | none =>
          exfalso
          apply hv
          rw [ht] at h
          simpa using h.symm
        | some t =>
          rw [ht] at h
          simpa using h
      | null => simp [pyGet1, pyGetD] at h
      | bool b => simp [pyGet1, pyGetD] at h
      | num q => simp [pyGet1, pyGetD] at h
      | str s => simp [pyGet1, pyGetD] at h
      | arr xs => simp [pyGet1, pyGetD] at h
  | null => simp [pyGetD] at h
  | bool b => simp [pyGetD] at h
  | num q => simp [pyGetD] at h
  | str s => simp [pyGetD] at h
  | arr xs => simp [pyGetD] at h

/-- An unrecognized api string never triggers the suspect-temperature
deduction (its `temp_value` stays `None`). -/
theorem suspectTemp_unknown (api : String) (data : Json)
    (h1 : ¬api = "OpenWeatherMap") (h2 : ¬api = "WeatherAPI") :
    suspectTemp api data = none := by
  unfold suspectTemp tempValueOf
  rw [if_neg h1, if_neg h2]

/-- Inversion of a fired suspect-temperature check: the safe extraction
returned exactly the flagged value, which is not `None`. -/
theorem suspectTemp_some (api : String) (data v : Json)
    (h : suspectTemp api data = some v) :
    tempValueOf api data = some v ∧ v ≠ .null := by
  unfold suspectTemp at h
  split at h
  · cases h
  · cases h
  next w hwnull htv =>
    cases htn : toNum w with
    | none => rw [htn] at h; cases h
    | some t =>
      rw [htn] at h
      replace h : (if t < -70 ∨ 50 < t then some w else none) = some v := h
      by_cases hc : t < -70 ∨ 50 < t
      · rw [if_pos hc] at h
        cases h
        exact ⟨htv, fun hh => hwnull hh⟩
      · rw [if_neg hc] at h
        cases h


/-- If the temperature path resolves, the OpenWeatherMap field loop misses
at most the other two fields. -/
theorem owm_fields_le (m : Metrics) (data v : Json)
    (h : resolvePath data ["current", "main", "temp"] = some v) :
    (checkFields m data (requiredFields "OpenWeatherMap")).2 ≤ 10 := by
  have hr : requiredFields "OpenWeatherMap" =
      [["current", "main", "temp"], ["current", "main", "humidity"],
       ["current", "wind", "speed"]] := rfl
  rw [hr]
  unfold checkFields
  rw [h]
  have := checkFields_le data
    [["current", "main", "humidity"], ["current", "wind", "speed"]]
    { m with data_points_collected := m.data_points_collected + 1 }
  simpa using this

/-- WeatherAPI analogue of `owm_fields_le`. -/
theorem wapi_fields_le (m : Metrics) (data v : Json)
    (h : resolvePath data ["current", "temp_c"] = some v) :
    (checkFields m data (requiredFields "WeatherAPI")).2 ≤ 10 := by
  have hr : requiredFields "WeatherAPI" =
      [["current", "temp_c"], ["current", "humidity"],
       ["current", "wind_kph"]] := rfl
  rw [hr]
  unfold checkFields
  rw [h]
  have := checkFields_le data [["current", "humidity"], ["current", "wind_kph"]]
    { m with data_points_collected := m.data_points_collected + 1 }
  simpa using this

/-- C9: for every payload on which assessment completes, the total
deduction is at most 45 — in fact the suspect-temperature deduction can
only fire when the temperature field resolved, so the deduction is at most
40 — hence the completeness score is at least 55, the final `max(0, ·)`
clamp never changes the value, and the attached score is never 0. -/
theorem C9_deduction_bound (m : Metrics) (r : RawRecord) (p : Metrics × ℤ)
    (h : assessCore m r = some p) :
    100 - p.2 ≤ 45 ∧ 55 ≤ p.2 ∧ max 0 p.2 = p.2 ∧
    (assessQuality m r).2.1.quality_score = some p.2.toNat ∧ p.2.toNat ≠ 0 := by
  have h60 : 60 ≤ p.2 := by
    unfold assessCore at h
    cases hfc : forecastCheckOf r.api r.data with
    | none => rw [hfc] at h; cases h
    | some inc =>
      rw [hfc] at h
      have hd1 : (if inc then (20:ℤ) else 0) ≤ 20 ∧ 0 ≤ (if inc then (20:ℤ) else 0) := by
        split <;> omega
      cases hst : suspectTemp r.api r.data with
      | none =>
        rw [hst] at h
        simp only [Option.some.injEq] at h
        subst h
        have hle := checkFields_le r.data (requiredFields r.api) m
        have hlen := requiredFields_length_le r.api
        have hln : (5:ℤ) * (requiredFields r.api).length ≤ 15 := by
          omega
        simp only []
        omega
      | some v =>
        rw [hst] at h
        simp only [Option.some.injEq] at h
        subst h
        by_cases hapi : r.api = "OpenWeatherMap"
        · rw [hapi] at hst
          obtain ⟨htv, hvn⟩ := suspectTemp_some _ _ _ hst
          have hres := tempValueOf_owm_resolve r.data v htv hvn
          have hfl := owm_fields_le m r.data v hres
          rw [hapi]
          simp only []
          omega
        · by_cases hapi2 : r.api = "WeatherAPI"
          · rw [hapi2] at hst
            obtain ⟨htv, hvn⟩ := suspectTemp_some _ _ _ hst
            have hres := tempValueOf_wapi_resolve r.data v htv hvn
            have hfl := wapi_fields_le m r.data v hres
            rw [hapi2]
            simp only []
            omega
          · rw [suspectTemp_unknown r.api r.data hapi hapi2] at hst
            cases hst
  refine ⟨by omega, by omega, by omega, ?_, by omega⟩
  unfold assessQuality
  rw [h]
  simp only []
  congr 2
  omega

/-- Witness for C9 at the concrete all-empty WeatherAPI payload, where
`assessCore` completes with completeness score 65. -/
theorem C9_deduction_bound_witness :
    100 - (65:ℤ) ≤ 45 ∧ 55 ≤ (65:ℤ) ∧ max 0 (65:ℤ) = 65 ∧
    (assessQuality initMetrics ⟨"WeatherAPI", "X", .obj [], none⟩).2.1.quality_score
        = some (65:ℤ).toNat ∧ (65:ℤ).toNat ≠ 0 :=
  C9_deduction_bound initMetrics ⟨"WeatherAPI", "X", .obj [], none⟩
    ((assessCore initMetrics ⟨"WeatherAPI", "X", .obj [], none⟩).getD (initMetrics, 65))
    rfl

/-- The total-request counter advances by exactly one per OWM endpoint
call. -/
theorem fetchOwmEndpoint_total (delay : ℚ) (world : World) (m : Metrics)
    (name : String) (st : List (String × Json) × Bool) :
    (fetchOwmEndpoint delay world m name st).1.total_requests = m.total_requests + 1 := by
  unfold fetchOwmEndpoint
  cases hw : world m.total_requests with
  | exn => rfl
  | resp s ob =>
    by_cases hs : s = 200
    · subst hs
      cases ob <;> simp
    · simp [hs]

/-- The `overall_success` flag after an OWM endpoint call is the old flag
or-ed with that call's success. -/
theorem fetchOwmEndpoint_flag (delay : ℚ) (world : World) (m : Metrics)
    (name : String) (st : List (String × Json) × Bool) :
    (fetchOwmEndpoint delay world m name st).2.1.2 =
      (st.2 || isOk200 (world m.total_requests)) := by
  unfold fetchOwmEndpoint
  cases hw : world m.total_requests with
  | exn => simp [isOk200]
  | resp s ob =>
    by_cases hs : s = 200
    · subst hs
      cases ob <;> simp [isOk200]
    · cases ob <;> simp [hs, isOk200]

/-- A fully populated OpenWeatherMap `current` section, with temperature
`t`, humidity `hum` and wind speed `wnd`. -/
def currentBody (t hum wnd : ℚ) : Json :=
  .obj [("main", .obj [("temp", .num t), ("humidity", .num hum)]),
        ("wind", .obj [("speed", .num wnd)])]

/-- C5: a fetch returns `None` iff all of that source's endpoint calls
failed (both endpoints for OpenWeatherMap, the single endpoint for
WeatherAPI); and in the partial-success scenario — HTTP 200 for `current`
but a failing `forecast` call — the payload's sections hold only
`current`, the per-source success counter is bumped (the fetch counts as
an overall success), and quality assessment applies the 20-point
forecast-completeness deduction: with a well-formed current section and an
in-range temperature the total deduction is exactly 20, score 80. -/
theorem C5_partial_success :
    (∀ (delay : ℚ) (world : World) (m : Metrics) (city : String),
      ((fetchOwmData delay world m city).2.1 = none ↔
        isOk200 (world m.total_requests) = false ∧
        isOk200 (world (m.total_requests + 1)) = false)) ∧
    (∀ (world : World) (m : Metrics) (city : String),
      ((fetchWapiData world m city).2.1 = none ↔
        isOk200 (world m.total_requests) = false)) ∧
    (∀ (delay : ℚ) (world : World) (m : Metrics) (city : String) (B : Json),
      world m.total_requests = .resp 200 (some B) →
      isOk200 (world (m.total_requests + 1)) = false →
      (fetchOwmData delay world m city).2.1 =
        some ⟨"OpenWeatherMap", city, .obj [("current", B)], none⟩ ∧
      (fetchOwmData delay world m city).1.owm_success = m.owm_success + 1) ∧
    (∀ B : Json,
      forecastCheckOf "OpenWeatherMap" (.obj [("current", B)]) = some true) ∧
    (∀ (m : Metrics) (city : String) (t hum wnd : ℚ),
      -70 ≤ t → t ≤ 50 →
      (assessQuality m ⟨"OpenWeatherMap", city,
          .obj [("current", currentBody t hum wnd)], none⟩).2.1.quality_score
          = some 80 ∧
      (assessQuality m ⟨"OpenWeatherMap", city,
          .obj [("current", currentBody t hum wnd)], none⟩).2.2 = none) := by
  refine ⟨?_, ?_, ?_, fun B => rfl, ?_⟩
  · intro delay world m city
    have h1t := fetchOwmEndpoint_total delay world m "current" ([], false)
    have h1f := fetchOwmEndpoint_flag delay world m "current" ([], false)
    have h2f := fetchOwmEndpoint_flag delay world
      (fetchOwmEndpoint delay world m "current" ([], false)).1 "forecast"
      (fetchOwmEndpoint delay world m "current" ([], false)).2.1
    rw [h1t, h1f] at h2f
    dsimp only at h2f
    simp only [Bool.false_or] at h2f
    unfold fetchOwmData
    dsimp only
    rw [h2f]
    cases ho1 : isOk200 (world m.total_requests) <;>
      cases ho2 : isOk200 (world (m.total_requests + 1)) <;> simp
  · intro world m city
    unfold fetchWapiData
    cases hw : world m.total_requests with
    | exn => simp [isOk200]
    | resp s ob =>
      by_cases hs : s = 200
      · subst hs
        cases ob <;> simp [isOk200]
      · cases ob <;> simp [hs, isOk200]
  · intro delay world m city B h1 h2
    have he1 : fetchOwmEndpoint delay world m "current" ([], false) =
        ({ m with
            total_requests := m.total_requests + 1
            owm_success := m.owm_success + 1 }, ([("current", B)], true),
          [Event.request "OpenWeatherMap" "current", Event.sleep delay]) := by
      unfold fetchOwmEndpoint
      rw [h1]
      simp
    unfold fetchOwmData
    rw [he1]
    dsimp only
    unfold fetchOwmEndpoint
    dsimp only
    cases hw2 : world (m.total_requests + 1) with
    | exn => simp
    | resp s ob =>
      rw [hw2] at h2
      by_cases hs : s = 200
      · subst hs
        cases ob with
        | some b => simp [isOk200] at h2
        | none => simp
      · cases ob <;> simp [hs]
  · intro m city t hum wnd ht1 ht2
    have hcond : ¬(t < -70 ∨ 50 < t) := by
      push_neg
      exact ⟨by linarith, by linarith⟩
    have hcore : assessCore m ⟨"OpenWeatherMap", city,
        .obj [("current", currentBody t hum wnd)], none⟩ =
        some ({ m with data_points_collected := m.data_points_collected + 3 }, 80) := by
      unfold assessCore
      simp [forecastCheckOf, forecastIncomplete, pyContains, checkFields,
        resolvePath, pySub, requiredFields, suspectTemp, tempValueOf, pyGetD,
        pyGet1, toNum, currentBody, List.lookup, hcond]
    unfold assessQuality
    rw [hcore]
    simp

/-- Witness for C5 in a concrete world: request 0 (OWM `current`) returns
200 with a well-formed body, request 1 (OWM `forecast`) returns 500. -/
theorem C5_partial_success_witness :
    ((fetchOwmData 1 (fun n => if n = 0 then .resp 200 (some (currentBody 20 50 5))
        else .resp 500 none) initMetrics "Lagos").2.1 =
      some ⟨"OpenWeatherMap", "Lagos", .obj [("current", currentBody 20 50 5)], none⟩ ∧
    (fetchOwmData 1 (fun n => if n = 0 then .resp 200 (some (currentBody 20 50 5))
        else .resp 500 none) initMetrics "Lagos").1.owm_success =
      initMetrics.owm_success + 1) ∧
    ((assessQuality initMetrics ⟨"OpenWeatherMap", "Lagos",
        .obj [("current", currentBody 20 50 5)], none⟩).2.1.quality_score = some 80 ∧
    (assessQuality initMetrics ⟨"OpenWeatherMap", "Lagos",
        .obj [("current", currentBody 20 50 5)], none⟩).2.2 = none) :=
  ⟨C5_partial_success.2.2.1 1 _ initMetrics "Lagos" (currentBody 20 50 5) rfl rfl,
   C5_partial_success.2.2.2.2 initMetrics "Lagos" 20 50 5 (by norm_num) (by norm_num)⟩

/-- C7 counterexample: the claim says that when an unexpected error escapes
the main collection loop, the run still attempts report *and metadata*
generation.  In this concrete world (WeatherAPI answers 200 with the JSON
body `5`, so `'forecast' not in data` raises TypeError inside
`_assess_and_log_quality`) the error does escape the loop, the handler
fires — but it only re-runs the two report generators; metadata generation
(and the data save) is not attempted. -/
theorem C7_counterexample :
    (collectData ⟨["X"], 1, 1, ["WeatherAPI"]⟩
        (fun _ => .resp 200 (some (.num 5))) "t0" initState ["X"]).2 =
      some PyErr.typeError ∧
    Phase.metadata ∉ (runAgent ⟨["X"], 1, 1, ["WeatherAPI"]⟩
        (fun _ => .resp 200 (some (.num 5))) "t0").2 := by
  constructor
  · rfl
  · intro hmem
    have hph : (runAgent ⟨["X"], 1, 1, ["WeatherAPI"]⟩
        (fun _ => .resp 200 (some (.num 5))) "t0").2 =
        [Phase.criticalLog, Phase.qualityReport, Phase.summary] := rfl
    rw [hph] at hmem
    simp at hmem

/-- C7 amended: when an unexpected error escapes the main collection loop,
it is caught at the top level, logged as critical, appended to the issues
list, and the run still attempts best-effort generation of the quality
report and the collection summary with whatever metrics and collections
exist at that point — but the data save and the metadata generation are
*not* attempted on this path. -/
theorem C7_crash_handler (cfg : Settings) (world : World) (ts : String)
    (st : CState) (e : PyErr)
    (h : collectData cfg world ts initState cfg.CITIES = (st, some e)) :
    (runAgent cfg world ts).2 =
      [Phase.criticalLog, Phase.qualityReport, Phase.summary] ∧
    (runAgent cfg world ts).1.metrics.issues = st.metrics.issues ++ [criticalMsg e] ∧
    Phase.metadata ∉ (runAgent cfg world ts).2 ∧
    Phase.saveData ∉ (runAgent cfg world ts).2 ∧
    (runAgent cfg world ts).1.raw_data = st.raw_data ∧
    (runAgent cfg world ts).1.processed_data = st.processed_data := by
  unfold runAgent
  rw [h]
  refine ⟨rfl, rfl, ?_, ?_, rfl, rfl⟩ <;> simp

/-- Witness for C7's amended statement at the concrete crashing world. -/
theorem C7_crash_handler_witness :
    (runAgent ⟨["X"], 1, 1, ["WeatherAPI"]⟩
        (fun _ => .resp 200 (some (.num 5))) "t0").2 =
      [Phase.criticalLog, Phase.qualityReport, Phase.summary] ∧
    (runAgent ⟨["X"], 1, 1, ["WeatherAPI"]⟩
        (fun _ => .resp 200 (some (.num 5))) "t0").1.metrics.issues =
      (collectData ⟨["X"], 1, 1, ["WeatherAPI"]⟩
          (fun _ => .resp 200 (some (.num 5))) "t0" initState
          (Settings.CITIES ⟨["X"], 1, 1, ["WeatherAPI"]⟩)).1.metrics.issues ++
        [criticalMsg PyErr.typeError] ∧
    Phase.metadata ∉ (runAgent ⟨["X"], 1, 1, ["WeatherAPI"]⟩
        (fun _ => .resp 200 (some (.num 5))) "t0").2 ∧
    Phase.saveData ∉ (runAgent ⟨["X"], 1, 1, ["WeatherAPI"]⟩
        (fun _ => .resp 200 (some (.num 5))) "t0").2 ∧
    (runAgent ⟨["X"], 1, 1, ["WeatherAPI"]⟩
        (fun _ => .resp 200 (some (.num 5))) "t0").1.raw_data =
      (collectData ⟨["X"], 1, 1, ["WeatherAPI"]⟩
          (fun _ => .resp 200 (some (.num 5))) "t0" initState
          (Settings.CITIES ⟨["X"], 1, 1, ["WeatherAPI"]⟩)).1.raw_data ∧
    (runAgent ⟨["X"], 1, 1, ["WeatherAPI"]⟩
        (fun _ => .resp 200 (some (.num 5))) "t0").1.processed_data =
      (collectData ⟨["X"], 1, 1, ["WeatherAPI"]⟩
          (fun _ => .resp 200 (some (.num 5))) "t0" initState
          (Settings.CITIES ⟨["X"], 1, 1, ["WeatherAPI"]⟩)).1.processed_data :=
  C7_crash_handler ⟨["X"], 1, 1, ["WeatherAPI"]⟩
    (fun _ => .resp 200 (some (.num 5))) "t0"
    (collectData ⟨["X"], 1, 1, ["WeatherAPI"]⟩
        (fun _ => .resp 200 (some (.num 5))) "t0" initState
        (Settings.CITIES ⟨["X"], 1, 1, ["WeatherAPI"]⟩)).1
    PyErr.typeError rfl

inductive PassEv (d : ℚ) : List Event → Prop
  | nil : PassEv d []
  | owm : ∀ evs, PassEv d evs →
      PassEv d (Event.request "OpenWeatherMap" "current" :: Event.sleep d ::
        Event.request "OpenWeatherMap" "forecast" :: Event.sleep d :: evs)
  | wapi : ∀ evs, PassEv d evs →
      PassEv d (Event.request "WeatherAPI" "forecast" :: evs)

def buildTrace (d : ℚ) (maxR : ℕ) (city : String) : ℕ → List (List Event) → List Event
  | _, [] => []
  | k, [p] => Event.attemptLog k maxR city :: p
  | k, p :: ps =>
    Event.attemptLog k maxR city :: p ++
      Event.sleep (d * 2 ^ k) :: buildTrace d maxR city (k + 1) ps

theorem fetchOwmEndpoint_events (delay : ℚ) (world : World) (m : Metrics)
    (name : String) (st : List (String × Json) × Bool) :
    (fetchOwmEndpoint delay world m name st).2.2 =
      [Event.request "OpenWeatherMap" name, Event.sleep delay] := by
  unfold fetchOwmEndpoint
  cases hw : world m.total_requests with
  | exn => rfl
  | resp s ob =>
    by_cases hs : s = 200
    · subst hs
      cases ob <;> simp
    · simp [hs]

theorem fetchOwmData_events (delay : ℚ) (world : World) (m : Metrics) (city : String) :
    (fetchOwmData delay world m city).2.2 =
      [Event.request "OpenWeatherMap" "current", Event.sleep delay,
       Event.request "OpenWeatherMap" "forecast", Event.sleep delay] := by
  unfold fetchOwmData
  dsimp only
  split <;>
    rw [fetchOwmEndpoint_events, fetchOwmEndpoint_events] <;> rfl

theorem fetchWapiData_events (world : World) (m : Metrics) (city : String) :
    (fetchWapiData world m city).2.2 = [Event.request "WeatherAPI" "forecast"] := by
  unfold fetchWapiData
  cases hw : world m.total_requests with
  | exn => rfl
  | resp s ob =>
    by_cases hs : s = 200
    · subst hs
      cases ob <;> simp
    · simp [hs]

theorem apiPass_passEv (delay : ℚ) (world : World) (city : String) :
    ∀ (apis : List String) (m : Metrics),
      PassEv delay ((apiPass delay world m city apis).2.2) := by
  intro apis
  induction apis with
  | nil => intro m; exact PassEv.nil
  | cons api rest ih =>
    intro m
    by_cases h1 : api = "OpenWeatherMap"
    · subst h1
      simp only [apiPass, tryApi, reduceIte]
      cases hr : (fetchOwmData delay world m city).2.1 with
      | some rec =>
        simp only [hr]
        rw [fetchOwmData_events]
        exact PassEv.owm [] PassEv.nil
      | none =>
        simp only [hr]
        rw [fetchOwmData_events]
        exact PassEv.owm _ (ih _)
    · by_cases h2 : api = "WeatherAPI"
      · subst h2
        simp only [apiPass, tryApi,
          if_neg (show ¬("WeatherAPI" : String) = "OpenWeatherMap" by decide),
          reduceIte]
        cases hr : (fetchWapiData world m city).2.1 with
        | some rec =>
          simp only [hr]
          rw [fetchWapiData_events]
          exact PassEv.wapi [] PassEv.nil
        | none =>
          simp only [hr]
          rw [fetchWapiData_events]
          exact PassEv.wapi _ (ih _)
      · simp only [apiPass, tryApi, if_neg h1, if_neg h2]
        exact ih _


theorem retryLoop_buildTrace (cfg : Settings) (world : World) (city : String) :
    ∀ (fuel attempt : ℕ) (m : Metrics),
      attempt + fuel = cfg.MAX_RETRIES →
      ∃ passes : List (List Event),
        passes.length ≤ fuel ∧
        (1 ≤ fuel → 1 ≤ passes.length) ∧
        (∀ p ∈ passes, PassEv cfg.RESPECTFUL_DELAY_SECONDS p) ∧
        (retryLoop cfg world city m attempt fuel).2.2 =
          buildTrace cfg.RESPECTFUL_DELAY_SECONDS cfg.MAX_RETRIES city attempt passes := by
  intro fuel
  induction fuel with
  | zero =>
    intro attempt m h
    exact ⟨[], by simp, by omega, by simp, rfl⟩
  | succ fuel ih =>
    intro attempt m h
    simp only [retryLoop]
    cases hr : (apiPass cfg.RESPECTFUL_DELAY_SECONDS world m city cfg.API_PRIORITY).2.1 with
    | some rec =>
      simp only [hr]
      refine ⟨[(apiPass cfg.RESPECTFUL_DELAY_SECONDS world m city cfg.API_PRIORITY).2.2],
        by simp, by simp, ?_, rfl⟩
      intro p hp
      simp only [List.mem_singleton] at hp
      subst hp
      exact apiPass_passEv cfg.RESPECTFUL_DELAY_SECONDS world city cfg.API_PRIORITY m
    | none =>
      simp only [hr]
      by_cases hlt : attempt < cfg.MAX_RETRIES - 1
      · rw [if_pos hlt]
        obtain ⟨ps, hlen, hne, hpe, htr⟩ :=
          ih (attempt + 1)
            (apiPass cfg.RESPECTFUL_DELAY_SECONDS world m city cfg.API_PRIORITY).1
            (by omega)
        have hfuel : 1 ≤ fuel := by omega
        cases ps with
        | nil => exact absurd (hne hfuel) (by simp)
        | cons q qs =>
          refine ⟨(apiPass cfg.RESPECTFUL_DELAY_SECONDS world m city cfg.API_PRIORITY).2.2
              :: q :: qs, ?_, by simp, ?_, ?_⟩
          · simp only [List.length_cons] at hlen ⊢
            omega
          · intro p hp
            rcases List.mem_cons.mp hp with h1 | h1
            · subst h1
              exact apiPass_passEv cfg.RESPECTFUL_DELAY_SECONDS world city cfg.API_PRIORITY m
            · exact hpe p h1
          · dsimp only
            rw [htr]
            rfl
      · rw [if_neg hlt]
        have hfuel : fuel = 0 := by omega
        subst hfuel
        refine ⟨[(apiPass cfg.RESPECTFUL_DELAY_SECONDS world m city cfg.API_PRIORITY).2.2],
          by simp, by simp, ?_, ?_⟩
        · intro p hp
          simp only [List.mem_singleton] at hp
          subst hp
          exact apiPass_passEv cfg.RESPECTFUL_DELAY_SECONDS world city cfg.API_PRIORITY m
        · show _ ++ (retryLoop cfg world city _ (attempt + 1) 0).2.2 = _
          simp only [retryLoop]
          rw [List.append_nil]
          rfl


def OwmSlept (d : ℚ) (l : List Event) : Prop :=
  ∀ (i : ℕ) (ep : String),
    l.get? i = some (.request "OpenWeatherMap" ep) →
    l.get? (i + 1) = some (.sleep d)

theorem owmSlept_nil (d : ℚ) : OwmSlept d [] := by
  intro i ep h
  simp [List.get?] at h

theorem owmSlept_append {d : ℚ} {l1 l2 : List Event}
    (h1 : OwmSlept d l1) (h2 : OwmSlept d l2) : OwmSlept d (l1 ++ l2) := by
  intro i ep h
  by_cases hi : i + 1 < l1.length
  · rw [List.get?_append (by omega)] at h
    rw [List.get?_append hi]
    exact h1 i ep h
  · by_cases hi0 : i < l1.length
    · rw [List.get?_append hi0] at h
      have hc := h1 i ep h
      rw [List.get?_eq_none.mpr (by omega)] at hc
      cases hc
    · rw [List.get?_append_right (by omega)] at h
      rw [List.get?_append_right (by omega)]
      have hc := h2 (i - l1.length) ep h
      rw [show i + 1 - l1.length = i - l1.length + 1 by omega]
      exact hc

theorem owmSlept_single (d : ℚ) (e : Event)
    (he : ∀ ep, e ≠ .request "OpenWeatherMap" ep) : OwmSlept d [e] := by
  intro i ep h
  rcases i with _ | i
  · simp only [List.get?] at h
    exact absurd (Option.some.inj h) (he ep)
  · simp [List.get?] at h

theorem owmSlept_owmBlock (d : ℚ) :
    OwmSlept d [Event.request "OpenWeatherMap" "current", Event.sleep d,
      Event.request "OpenWeatherMap" "forecast", Event.sleep d] := by
  intro i ep h
  rcases i with _ | _ | _ | _ | i
  · rfl
  · simp [List.get?] at h
  · rfl
  · simp [List.get?] at h
  · simp [List.get?] at h

theorem passEv_owmSlept {d : ℚ} {l : List Event} (h : PassEv d l) : OwmSlept d l := by
  induction h with
  | nil => exact owmSlept_nil d
  | owm evs hevs ih =>
    exact owmSlept_append (owmSlept_owmBlock d) ih
  | wapi evs hevs ih =>
    exact owmSlept_append (owmSlept_single d _ (by intro ep; simp)) ih

theorem buildTrace_owmSlept (d : ℚ) (maxR : ℕ) (city : String) :
    ∀ (passes : List (List Event)) (k : ℕ),
      (∀ p ∈ passes, PassEv d p) →
      OwmSlept d (buildTrace d maxR city k passes) := by
  intro passes
  induction passes with
  | nil => intro k _; exact owmSlept_nil d
  | cons p ps ih =>
    intro k hall
    cases ps with
    | nil =>
      show OwmSlept d ([Event.attemptLog k maxR city] ++ p)
      exact owmSlept_append (owmSlept_single d _ (by intro ep; simp))
        (passEv_owmSlept (hall p (by simp)))
    | cons q qs =>
      show OwmSlept d ([Event.attemptLog k maxR city] ++
        (p ++ ([Event.sleep (d * 2 ^ k)] ++ buildTrace d maxR city (k + 1) (q :: qs))))
      refine owmSlept_append (owmSlept_single d _ (by intro ep; simp)) ?_
      refine owmSlept_append (passEv_owmSlept (hall p (by simp))) ?_
      refine owmSlept_append (owmSlept_single d _ (by intro ep; simp)) ?_
      exact ih (k + 1) (fun r hr => hall r (by simp [hr]))

theorem collectCity_owmSlept (cfg : Settings) (world : World) (m : Metrics)
    (city : String) :
    OwmSlept cfg.RESPECTFUL_DELAY_SECONDS (collectCity cfg world m city).2.2 := by
  obtain ⟨ps, -, -, hpe, htr⟩ :=
    retryLoop_buildTrace cfg world city cfg.MAX_RETRIES 0 m (by omega)
  rw [collectCity, htr]
  exact buildTrace_owmSlept _ _ _ ps 0 hpe

theorem collectData_owmSlept (cfg : Settings) (world : World) (ts : String) :
    ∀ (cities : List String) (st : CState),
      OwmSlept cfg.RESPECTFUL_DELAY_SECONDS st.trace →
      OwmSlept cfg.RESPECTFUL_DELAY_SECONDS
        (collectData cfg world ts st cities).1.trace := by
  intro cities
  induction cities with
  | nil => intro st h; exact h
  | cons c cs ih =>
    intro st h
    unfold collectData collectStep
    cases hr : (collectCity cfg world st.metrics c).2.1 with
    | some rec =>
      simp only [hr]
      cases ha : assessQuality (collectCity cfg world st.metrics c).1 rec with
      | mk m2 rest =>
        cases rest with
        | mk rec2 err =>
          cases err with
          | none =>
            simp only []
            exact ih _ (owmSlept_append h (collectCity_owmSlept cfg world st.metrics c))
          | some e =>
            simp only []
            exact owmSlept_append h (collectCity_owmSlept cfg world st.metrics c)
    | none =>
      simp only [hr]
      exact ih _ (owmSlept_append h (collectCity_owmSlept cfg world st.metrics c))

/-- C3: the retry orchestrator's trace for one city decomposes into at
most `MAX_RETRIES` attempt blocks.  `buildTrace` pins the rest of the
claim: block `k` (0-based, as in the code's `range(MAX_RETRIES)`) opens
with the attempt log event; between block `k` and block `k+1` exactly one
backoff sleep of `RESPECTFUL_DELAY_SECONDS * 2 ^ k` is interposed — i.e.
the sleep before attempt `k` (k ≥ 1) is `base_delay * 2^(k-1)`, and the
i-th backoff overall (i = 1, 2, …) sleeps `base_delay * 2^(i-1)` — and no
backoff sleep follows the final attempt block.  `PassEv` certifies that
the sleeps inside a block are only the fixed respectful delays after
OpenWeatherMap endpoint calls, so the interposed sleeps are the only
backoffs. -/
theorem C3_retry_attempts_backoff (cfg : Settings) (world : World)
    (m : Metrics) (city : String) :
    ∃ passes : List (List Event),
      passes.length ≤ cfg.MAX_RETRIES ∧
      (∀ p ∈ passes, PassEv cfg.RESPECTFUL_DELAY_SECONDS p) ∧
      (collectCity cfg world m city).2.2 =
        buildTrace cfg.RESPECTFUL_DELAY_SECONDS cfg.MAX_RETRIES city 0 passes := by
  obtain ⟨ps, h1, -, h3, h4⟩ :=
    retryLoop_buildTrace cfg world city cfg.MAX_RETRIES 0 m (by omega)
  exact ⟨ps, h1, h3, h4⟩

/-- Scanner for the claim "after every endpoint call the program pauses
before the next outbound request": `false` iff the trace contains two
adjacent request events with no sleep between them. -/
def noAdjacentRequests : List Event → Bool
  | .request _ _ :: .request _ _ :: _ => false
  | _ :: rest => noAdjacentRequests rest
  | [] => true

/-- C4 counterexample: with priority `["WeatherAPI", "OpenWeatherMap"]`
and every request failing, the failed WeatherAPI call is immediately
followed by the OpenWeatherMap `current` request with no sleep between —
`_fetch_wapi_data` contains no respectful-delay sleep at all.  The claim
that *every* endpoint call is followed by a pause is therefore false. -/
theorem C4_counterexample :
    (collectData ⟨["X"], 1, 1, ["WeatherAPI", "OpenWeatherMap"]⟩ (fun _ => .exn)
        "t0" initState ["X"]).1.trace =
      [Event.attemptLog 0 1 "X", Event.request "WeatherAPI" "forecast",
       Event.request "OpenWeatherMap" "current", Event.sleep 1,
       Event.request "OpenWeatherMap" "forecast", Event.sleep 1] ∧
    noAdjacentRequests
      (collectData ⟨["X"], 1, 1, ["WeatherAPI", "OpenWeatherMap"]⟩ (fun _ => .exn)
        "t0" initState ["X"]).1.trace = false :=
  ⟨rfl, rfl⟩

/-- C4 amended: after every *OpenWeatherMap* endpoint call the program
pauses for the configured respectful delay before the next event (in
particular before the next outbound request, whatever source it belongs
to); WeatherAPI endpoint calls have no such pause. -/
theorem C4_owm_respectful_delay (cfg : Settings) (world : World) (ts : String)
    (i : ℕ) (ep : String)
    (h : ((collectData cfg world ts initState cfg.CITIES).1.trace).get? i =
      some (.request "OpenWeatherMap" ep)) :
    ((collectData cfg world ts initState cfg.CITIES).1.trace).get? (i + 1) =
      some (.sleep cfg.RESPECTFUL_DELAY_SECONDS) :=
  collectData_owmSlept cfg world ts cfg.CITIES initState (owmSlept_nil _) i ep h

/-- Witness for C4's amended statement: a concrete OpenWeatherMap-only run
whose trace has the `current` request at position 1, followed by the
respectful sleep. -/
theorem C4_owm_respectful_delay_witness :
    ((collectData ⟨["X"], 1, 1, ["OpenWeatherMap"]⟩ (fun _ => .exn) "t0"
        initState (Settings.CITIES ⟨["X"], 1, 1, ["OpenWeatherMap"]⟩)).1.trace).get?
        (1 + 1) =
      some (.sleep (Settings.RESPECTFUL_DELAY_SECONDS
        ⟨["X"], 1, 1, ["OpenWeatherMap"]⟩)) :=
  C4_owm_respectful_delay ⟨["X"], 1, 1, ["OpenWeatherMap"]⟩ (fun _ => .exn) "t0"
    1 "current" rfl

/-- Two hard-failure issue strings with the same retry count name the same
city: the fixed prefix and suffix cancel. -/
theorem hardFailureMsg_inj {c c' : String} {n : ℕ}
    (h : hardFailureMsg c n = hardFailureMsg c' n) : c = c' := by
  unfold hardFailureMsg at h
  have hd := congrArg String.data h
  simp only [String.data_append, List.append_assoc] at hd
  have h1 := List.append_cancel_left hd
  obtain ⟨lc⟩ := c
  obtain ⟨lc'⟩ := c'
  simp only [List.append_assoc] at h1
  have h2 := List.append_cancel_right h1
  simp only at h2
  rw [h2]

/-- A suspect-temperature issue string is never a hard-failure issue
string (their first characters differ). -/
theorem suspectMsg_ne_hard (city api : String) (v : Json) (c : String) (n : ℕ) :
    suspectMsg city api v ≠ hardFailureMsg c n := by
  intro h
  have hd := congrArg String.data h
  unfold suspectMsg hardFailureMsg at hd
  simp only [String.data_append, List.append_assoc] at hd
  simp at hd


/-- Recognizer for hard-failure issue strings, by their fixed prefix. -/
def isHardIssue (s : String) : Bool :=
  decide (s.data.take 17 = "Hard failure for ".data)

/-- Every hard-failure message is recognized. -/
theorem isHardIssue_hard (c : String) (n : ℕ) :
    isHardIssue (hardFailureMsg c n) = true := by
  unfold isHardIssue hardFailureMsg
  rw [decide_eq_true_eq]
  have hre : ("Hard failure for " ++ c ++ " after " ++ toString n ++ " attempts.").data =
      "Hard failure for ".data ++
        (c.data ++ " after ".data ++ (toString n).data ++ " attempts.".data) := by
    simp [String.data_append]
  rw [hre]
  exact List.take_left' rfl

/-- No suspect-temperature message is recognized as a hard failure. -/
theorem isHardIssue_suspect (city api : String) (v : Json) :
    isHardIssue (suspectMsg city api v) = false := by
  unfold isHardIssue suspectMsg
  rw [decide_eq_false_iff_not]
  intro heq
  have hre : ("Suspect Temp in " ++ city ++ " (" ++ api ++ "): " ++ pyStr v ++ "C").data =
      "Suspect Temp in ".data ++
        (city.data ++ " (".data ++ api.data ++ "): ".data ++ (pyStr v).data ++ "C".data) := by
    simp [String.data_append]
  rw [hre] at heq
  rw [show (17 : ℕ) = "Suspect Temp in ".data.length + 1 from rfl,
    List.take_append] at heq
  simp at heq



/-- OWM endpoint calls never touch the issue log or the failure
counter. -/
theorem fetchOwmEndpoint_pres (delay : ℚ) (world : World) (m : Metrics)
    (name : String) (st : List (String × Json) × Bool) :
    (fetchOwmEndpoint delay world m name st).1.issues = m.issues ∧
    (fetchOwmEndpoint delay world m name st).1.failures = m.failures := by
  unfold fetchOwmEndpoint
  cases hw : world m.total_requests with
  | exn => exact ⟨rfl, rfl⟩
  | resp s ob =>
    by_cases hs : s = 200
    · subst hs
      cases ob <;> exact ⟨rfl, rfl⟩
    · dsimp only
      rw [if_neg hs]
      exact ⟨rfl, rfl⟩

/-- The metrics after an OWM fetch are those after its second endpoint
call, whichever way the success flag falls. -/
theorem fetchOwmData_metrics (delay : ℚ) (world : World) (m : Metrics) (city : String) :
    (fetchOwmData delay world m city).1 =
      (fetchOwmEndpoint delay world
        (fetchOwmEndpoint delay world m "current" ([], false)).1 "forecast"
        (fetchOwmEndpoint delay world m "current" ([], false)).2.1).1 := by
  unfold fetchOwmData
  dsimp only
  split <;> rfl

/-- An OWM fetch never touches the issue log or the failure counter. -/
theorem fetchOwmData_pres (delay : ℚ) (world : World) (m : Metrics) (city : String) :
    (fetchOwmData delay world m city).1.issues = m.issues ∧
    (fetchOwmData delay world m city).1.failures = m.failures := by
  rw [fetchOwmData_metrics]
  have h1 := fetchOwmEndpoint_pres delay world m "current" ([], false)
  have h2 := fetchOwmEndpoint_pres delay world
    (fetchOwmEndpoint delay world m "current" ([], false)).1 "forecast"
    (fetchOwmEndpoint delay world m "current" ([], false)).2.1
  exact ⟨h2.1.trans h1.1, h2.2.trans h1.2⟩

/-- A WAPI fetch never touches the issue log or the failure counter. -/
theorem fetchWapiData_pres (world : World) (m : Metrics) (city : String) :
    (fetchWapiData world m city).1.issues = m.issues ∧
    (fetchWapiData world m city).1.failures = m.failures := by
  unfold fetchWapiData
  cases hw : world m.total_requests with
  | exn => exact ⟨rfl, rfl⟩
  | resp s ob =>
    by_cases hs : s = 200
    · subst hs
      cases ob <;> exact ⟨rfl, rfl⟩
    · dsimp only
      rw [if_neg hs]
      exact ⟨rfl, rfl⟩

/-- A successful OWM fetch returns a record for the requested city. -/
theorem fetchOwmData_city (delay : ℚ) (world : World) (m : Metrics) (city : String)
    (rec : RawRecord) (h : (fetchOwmData delay world m city).2.1 = some rec) :
    rec.city = city := by
  unfold fetchOwmData at h
  dsimp only at h
  split at h
  · cases h
    rfl
  · cases h

/-- A successful WAPI fetch returns a record for the requested city. -/
theorem fetchWapiData_city (world : World) (m : Metrics) (city : String)
    (rec : RawRecord) (h : (fetchWapiData world m city).2.1 = some rec) :
    rec.city = city := by
  unfold fetchWapiData at h
  cases hw : world m.total_requests with
  | exn => rw [hw] at h; cases h
  | resp s ob =>
    rw [hw] at h
    by_cases hs : s = 200
    · subst hs
      cases ob with
      | some b =>
        simp only [if_pos rfl] at h
        cases h
        rfl
      | none => simp only [if_pos rfl] at h; cases h
    · dsimp only at h
      rw [if_neg hs] at h
      cases h

/-- The API dispatch never touches the issue log or the failure
counter. -/
theorem tryApi_pres (delay : ℚ) (world : World) (m : Metrics) (city api : String) :
    (tryApi delay world m city api).1.issues = m.issues ∧
    (tryApi delay world m city api).1.failures = m.failures := by
  unfold tryApi
  by_cases h1 : api = "OpenWeatherMap"
  · rw [if_pos h1]
    exact fetchOwmData_pres delay world m city
  · rw [if_neg h1]
    by_cases h2 : api = "WeatherAPI"
    · rw [if_pos h2]
      exact fetchWapiData_pres world m city
    · rw [if_neg h2]
      exact ⟨rfl, rfl⟩

/-- The API dispatch returns records for the requested city only. -/
theorem tryApi_city (delay : ℚ) (world : World) (m : Metrics) (city api : String)
    (rec : RawRecord) (h : (tryApi delay world m city api).2.1 = some rec) :
    rec.city = city := by
  unfold tryApi at h
  by_cases h1 : api = "OpenWeatherMap"
  · rw [if_pos h1] at h
    exact fetchOwmData_city delay world m city rec h
  · rw [if_neg h1] at h
    by_cases h2 : api = "WeatherAPI"
    · rw [if_pos h2] at h
      exact fetchWapiData_city world m city rec h
    · rw [if_neg h2] at h
      cases h

/-- An API-priority pass never touches the issue log or the failure
counter. -/
theorem apiPass_pres (delay : ℚ) (world : World) (city : String) :
    ∀ (apis : List String) (m : Metrics),
      (apiPass delay world m city apis).1.issues = m.issues ∧
      (apiPass delay world m city apis).1.failures = m.failures := by
  intro apis
  induction apis with
  | nil => intro m; exact ⟨rfl, rfl⟩
  | cons api rest ih =>
    intro m
    unfold apiPass
    cases hr : (tryApi delay world m city api).2.1 with
    | some rec =>
      simp only [hr]
      have := tryApi_pres delay world m city api
      exact ⟨this.1, this.2⟩
    | none =>
      simp only [hr]
      have h1 := tryApi_pres delay world m city api
      have h2 := ih (tryApi delay world m city api).1
      exact ⟨h2.1.trans h1.1, h2.2.trans h1.2⟩

/-- An API-priority pass returns records for the requested city only. -/
theorem apiPass_city (delay : ℚ) (world : World) (city : String) :
    ∀ (apis : List String) (m : Metrics) (rec : RawRecord),
      (apiPass delay world m city apis).2.1 = some rec → rec.city = city := by
  intro apis
  induction apis with
  | nil => intro m rec h; cases h
  | cons api rest ih =>
    intro m rec h
    unfold apiPass at h
    cases hr : (tryApi delay world m city api).2.1 with
    | some r0 =>
      simp only [hr] at h
      rw [← Option.some.inj h]
      exact tryApi_city delay world m city api r0 hr
    | none =>
      simp only [hr] at h
      exact ih _ rec h

/-- The retry loop never touches the issue log or the failure counter
(those are mutated only by its caller). -/
theorem retryLoop_pres (cfg : Settings) (world : World) (city : String) :
    ∀ (fuel attempt : ℕ) (m : Metrics),
      (retryLoop cfg world city m attempt fuel).1.issues = m.issues ∧
      (retryLoop cfg world city m attempt fuel).1.failures = m.failures := by
  intro fuel
  induction fuel with
  | zero => intro attempt m; exact ⟨rfl, rfl⟩
  | succ fuel ih =>
    intro attempt m
    unfold retryLoop
    cases hr : (apiPass cfg.RESPECTFUL_DELAY_SECONDS world m city cfg.API_PRIORITY).2.1 with
    | some rec =>
      simp only [hr]
      exact apiPass_pres cfg.RESPECTFUL_DELAY_SECONDS world city cfg.API_PRIORITY m
    | none =>
      simp only [hr]
      have h1 := apiPass_pres cfg.RESPECTFUL_DELAY_SECONDS world city cfg.API_PRIORITY m
      have h2 := ih (attempt + 1)
        (apiPass cfg.RESPECTFUL_DELAY_SECONDS world m city cfg.API_PRIORITY).1
      split <;>
        exact ⟨h2.1.trans h1.1, h2.2.trans h1.2⟩

/-- The retry loop returns records for the requested city only. -/
theorem retryLoop_city (cfg : Settings) (world : World) (city : String) :
    ∀ (fuel attempt : ℕ) (m : Metrics) (rec : RawRecord),
      (retryLoop cfg world city m attempt fuel).2.1 = some rec → rec.city = city := by
  intro fuel
  induction fuel with
  | zero => intro attempt m rec h; cases h
  | succ fuel ih =>
    intro attempt m rec h
    unfold retryLoop at h
    cases hr : (apiPass cfg.RESPECTFUL_DELAY_SECONDS world m city cfg.API_PRIORITY).2.1 with
    | some r0 =>
      simp only [hr] at h
      rw [← Option.some.inj h]
      exact apiPass_city cfg.RESPECTFUL_DELAY_SECONDS world city cfg.API_PRIORITY m r0 hr
    | none =>
      simp only [hr] at h
      split at h <;> exact ih _ _ rec h

/-- One-city collection never touches the issue log or the failure
counter. -/
theorem collectCity_pres (cfg : Settings) (world : World) (m : Metrics) (city : String) :
    (collectCity cfg world m city).1.issues = m.issues ∧
    (collectCity cfg world m city).1.failures = m.failures :=
  retryLoop_pres cfg world city cfg.MAX_RETRIES 0 m

/-- One-city collection returns records for the requested city only. -/
theorem collectCity_city (cfg : Settings) (world : World) (m : Metrics) (city : String)
    (rec : RawRecord) (h : (collectCity cfg world m city).2.1 = some rec) :
    rec.city = city :=
  retryLoop_city cfg world city cfg.MAX_RETRIES 0 m rec h


/-- The required-field loop never touches the issue log or the failure
counter. -/
theorem checkFields_pres (data : Json) :
    ∀ (ps : List (List String)) (m : Metrics),
      (checkFields m data ps).1.issues = m.issues ∧
      (checkFields m data ps).1.failures = m.failures := by
  intro ps
  induction ps with
  | nil => intro m; exact ⟨rfl, rfl⟩
  | cons p ps ih =>
    intro m
    unfold checkFields
    cases h : resolvePath data p with
    | some v =>
      exact ih { m with data_points_collected := m.data_points_collected + 1 }
    | none =>
      exact ih m

/-- Assessment adds at most one suspect-temperature issue and never
touches the failure counter. -/
theorem assessCore_spec (m : Metrics) (r : RawRecord) (p : Metrics × ℤ)
    (hc : assessCore m r = some p) :
    p.1.failures = m.failures ∧
    (p.1.issues = m.issues ∨
      ∃ v, p.1.issues = m.issues ++ [suspectMsg r.city r.api v]) := by
  unfold assessCore at hc
  cases hfc : forecastCheckOf r.api r.data with
  | none => rw [hfc] at hc; cases hc
  | some inc =>
    rw [hfc] at hc
    have hcf := checkFields_pres r.data (requiredFields r.api) m
    cases hst : suspectTemp r.api r.data with
    | some v =>
      rw [hst] at hc
      cases hc
      exact ⟨hcf.2, Or.inr ⟨v, by rw [hcf.1]⟩⟩
    | none =>
      rw [hst] at hc
      cases hc
      exact ⟨hcf.2, Or.inl hcf.1⟩

/-- `_assess_and_log_quality` keeps the record's city, never touches the
failure counter, adds at most one suspect-temperature issue, and adds
nothing at all when it raises. -/
theorem assessQuality_spec (m : Metrics) (r : RawRecord) :
    (assessQuality m r).2.1.city = r.city ∧
    (assessQuality m r).1.failures = m.failures ∧
    ((assessQuality m r).1.issues = m.issues ∨
      ∃ v, (assessQuality m r).1.issues = m.issues ++ [suspectMsg r.city r.api v]) ∧
    ((assessQuality m r).2.2 ≠ none → (assessQuality m r).1.issues = m.issues) := by
  unfold assessQuality
  cases hc : assessCore m r with
  | none => exact ⟨rfl, rfl, Or.inl rfl, fun _ => rfl⟩
  | some p =>
    have hs := assessCore_spec m r p hc
    exact ⟨rfl, hs.1, hs.2, fun hne => absurd rfl hne⟩

/-- The `try` body of `_process_raw_data` never touches the `city`
field. -/
theorem branchBody_city (api : String) (data : Json) (p : ProcessedRecord) :
    ((branchBody api data p).1).city = p.city := by
  unfold branchBody owmBranch wapiBranch
  repeat' split
  all_goals rfl

/-- Normalization preserves the city of the record. -/
theorem processRawData_city (ts : String) (r : RawRecord) :
    (processRawData ts r).city = r.city := by
  unfold processRawData processRawAux
  dsimp only
  split
  · show (branchBody r.api r.data _).1.city = r.city
    rw [branchBody_city]
  · show (branchBody r.api r.data _).1.city = r.city
    rw [branchBody_city]

/-- The three possible outcomes of one iteration of the city loop:
success (one raw and one processed record appended for this city, at most
suspect-temperature issues added, failures unchanged), an escaping
assessment exception (raw record appended, nothing else), or exhaustion
(no records, the hard-failure issue appended, failures incremented). -/
theorem collectStep_spec (cfg : Settings) (world : World) (ts : String)
    (st : CState) (city : String) :
    (∃ rec Δi,
      (collectStep cfg world ts st city).2 = none ∧
      (collectStep cfg world ts st city).1.processed_data =
        st.processed_data ++ [processRawData ts rec] ∧
      (collectStep cfg world ts st city).1.raw_data = st.raw_data ++ [rec] ∧
      rec.city = city ∧
      (collectStep cfg world ts st city).1.metrics.issues = st.metrics.issues ++ Δi ∧
      (∀ s ∈ Δi, ∃ api v, s = suspectMsg city api v) ∧
      (collectStep cfg world ts st city).1.metrics.failures = st.metrics.failures) ∨
    (∃ rec e,
      (collectStep cfg world ts st city).2 = some e ∧
      (collectStep cfg world ts st city).1.processed_data = st.processed_data ∧
      (collectStep cfg world ts st city).1.raw_data = st.raw_data ++ [rec] ∧
      rec.city = city ∧
      (collectStep cfg world ts st city).1.metrics.issues = st.metrics.issues ∧
      (collectStep cfg world ts st city).1.metrics.failures = st.metrics.failures) ∨
    ((collectStep cfg world ts st city).2 = none ∧
      (collectStep cfg world ts st city).1.processed_data = st.processed_data ∧
      (collectStep cfg world ts st city).1.raw_data = st.raw_data ∧
      (collectStep cfg world ts st city).1.metrics.issues =
        st.metrics.issues ++ [hardFailureMsg city cfg.MAX_RETRIES] ∧
      (collectStep cfg world ts st city).1.metrics.failures =
        st.metrics.failures + 1) := by
  have hpres := collectCity_pres cfg world st.metrics city
  unfold collectStep
  cases hr : (collectCity cfg world st.metrics city).2.1 with
  | some rec =>
    have hcity := collectCity_city cfg world st.metrics city rec hr
    have hasp := assessQuality_spec (collectCity cfg world st.metrics city).1 rec
    simp only [hr]
    cases ha : assessQuality (collectCity cfg world st.metrics city).1 rec with
    | mk m2 rest =>
      cases rest with
      | mk rec2 err =>
        rw [ha] at hasp
        obtain ⟨hc2, hf2, hi2, hie⟩ := hasp
        dsimp only at hc2 hf2 hi2 hie
        cases err with
        | none =>
          left
          rcases hi2 with hi | ⟨v, hi⟩
          · refine ⟨rec2, [], rfl, rfl, rfl, hc2.trans hcity, ?_, by simp, ?_⟩
            · show m2.issues = st.metrics.issues ++ []
              rw [List.append_nil, hi, hpres.1]
            · show m2.failures = st.metrics.failures
              rw [hf2, hpres.2]
          · refine ⟨rec2, [suspectMsg city rec.api v], rfl, rfl, rfl,
              hc2.trans hcity, ?_, ?_, ?_⟩
            · show m2.issues = st.metrics.issues ++ [suspectMsg city rec.api v]
              rw [hi, hpres.1, hcity]
            · intro s hs
              simp only [List.mem_singleton] at hs
              exact ⟨rec.api, v, hs⟩
            · show m2.failures = st.metrics.failures
              rw [hf2, hpres.2]
        | some e =>
          right; left
          refine ⟨rec2, e, rfl, rfl, rfl, hc2.trans hcity, ?_, ?_⟩
          · show m2.issues = st.metrics.issues
            rw [hie (by simp), hpres.1]
          · show m2.failures = st.metrics.failures
            rw [hf2, hpres.2]
  | none =>
    right; right
    simp only [hr]
    refine ⟨trivial, trivial, trivial, ?_, ?_⟩
    · show (collectCity cfg world st.metrics city).1.issues ++ _ = _
      rw [hpres.1]
    · show (collectCity cfg world st.metrics city).1.failures + 1 = _
      rw [hpres.2]


/-- The city loop only ever appends to the record collections and the
issue log. -/
theorem collectData_mono (cfg : Settings) (world : World) (ts : String) :
    ∀ (cs : List String) (st : CState),
      ∃ Δp Δr Δi,
        (collectData cfg world ts st cs).1.processed_data = st.processed_data ++ Δp ∧
        (collectData cfg world ts st cs).1.raw_data = st.raw_data ++ Δr ∧
        (collectData cfg world ts st cs).1.metrics.issues = st.metrics.issues ++ Δi := by
  intro cs
  induction cs with
  | nil =>
    intro st
    exact ⟨[], [], [], by simp [collectData], by simp [collectData], by simp [collectData]⟩
  | cons c0 cs ih =>
    intro st
    unfold collectData
    rcases hstep : collectStep cfg world ts st c0 with ⟨st1, err⟩
    have hspec := collectStep_spec cfg world ts st c0
    rw [hstep] at hspec
    cases err with
    | none =>
      obtain ⟨Δp, Δr, Δi, hp, hr, hi⟩ := ih st1
      rcases hspec with ⟨rec, Δi0, -, hp0, hr0, -, hi0, -, -⟩ |
        ⟨rec, e, he, -, -, -, -, -⟩ | ⟨-, hp0, hr0, hi0, -⟩
      · exact ⟨[processRawData ts rec] ++ Δp, [rec] ++ Δr, Δi0 ++ Δi,
          by rw [hp, hp0, List.append_assoc],
          by rw [hr, hr0, List.append_assoc],
          by rw [hi, hi0, List.append_assoc]⟩
      · cases he
      · exact ⟨Δp, Δr, [hardFailureMsg c0 cfg.MAX_RETRIES] ++ Δi,
          by rw [hp, hp0],
          by rw [hr, hr0],
          by rw [hi, hi0, List.append_assoc]⟩
    | some e =>
      rcases hspec with ⟨rec, Δi0, he, -⟩ |
        ⟨rec, e0, he, hp0, hr0, -, hi0, -⟩ | ⟨he, -⟩
      · cases he
      · exact ⟨[], [rec], [],
          by rw [List.append_nil, hp0],
          by rw [hr0],
          by rw [List.append_nil, hi0]⟩
      · cases he

/-- The failure counter always equals the number of hard-failure issue
strings in the log: each increment is paired with exactly one such
issue. -/
theorem collectData_count (cfg : Settings) (world : World) (ts : String) :
    ∀ (cs : List String) (st : CState),
      st.metrics.failures = List.countP isHardIssue st.metrics.issues →
      (collectData cfg world ts st cs).1.metrics.failures =
        List.countP isHardIssue (collectData cfg world ts st cs).1.metrics.issues := by
  intro cs
  induction cs with
  | nil =>
    intro st h
    simpa [collectData] using h
  | cons c0 cs ih =>
    intro st h
    unfold collectData
    rcases hstep : collectStep cfg world ts st c0 with ⟨st1, err⟩
    have hspec := collectStep_spec cfg world ts st c0
    rw [hstep] at hspec
    have key : st1.metrics.failures = List.countP isHardIssue st1.metrics.issues := by
      rcases hspec with ⟨rec, Δi0, -, -, -, -, hi0, hΔ, hf0⟩ |
        ⟨rec, e, -, -, -, -, hi0, hf0⟩ | ⟨-, -, -, hi0, hf0⟩
      · simp only at hi0 hf0
        rw [hf0, hi0, List.countP_append, h]
        have : List.countP isHardIssue Δi0 = 0 := by
          rw [List.countP_eq_zero]
          intro s hs
          obtain ⟨api, v, hv⟩ := hΔ s hs
          rw [hv]
          simp [isHardIssue_suspect]
        omega
      · simp only at hi0 hf0
        rw [hf0, hi0, h]
      · simp only at hi0 hf0
        rw [hf0, hi0, List.countP_append, h]
        simp [List.countP_cons, isHardIssue_hard]
    cases err with
    | none => exact ih st1 key
    | some e => exact key

/-- Cities outside the remaining worklist never gain raw or processed
records. -/
theorem collectData_no_records (cfg : Settings) (world : World) (ts : String)
    (c : String) :
    ∀ (cs : List String) (st : CState),
      c ∉ cs →
      (∀ r ∈ st.processed_data, r.city ≠ c) →
      (∀ r ∈ st.raw_data, r.city ≠ c) →
      (∀ r ∈ (collectData cfg world ts st cs).1.processed_data, r.city ≠ c) ∧
      (∀ r ∈ (collectData cfg world ts st cs).1.raw_data, r.city ≠ c) := by
  intro cs
  induction cs with
  | nil =>
    intro st _ h1 h2
    exact ⟨h1, h2⟩
  | cons c0 cs ih =>
    intro st hnotin h1 h2
    have hc0 : c0 ≠ c := fun h => hnotin (h ▸ List.mem_cons_self c0 cs)
    have hcs : c ∉ cs := fun h => hnotin (List.mem_cons_of_mem c0 h)
    unfold collectData
    rcases hstep : collectStep cfg world ts st c0 with ⟨st1, err⟩
    have hspec := collectStep_spec cfg world ts st c0
    rw [hstep] at hspec
    have key : (∀ r ∈ st1.processed_data, r.city ≠ c) ∧
        (∀ r ∈ st1.raw_data, r.city ≠ c) := by
      rcases hspec with ⟨rec, Δi0, -, hp0, hr0, hrc, -, -, -⟩ |
        ⟨rec, e, -, hp0, hr0, hrc, -, -⟩ | ⟨-, hp0, hr0, -, -⟩
      · refine ⟨?_, ?_⟩
        · intro r hr
          rw [hp0] at hr
          rcases List.mem_append.mp hr with h | h
          · exact h1 r h
          · simp only [List.mem_singleton] at h
            subst h
            rw [processRawData_city, hrc]
            exact hc0
        · intro r hr
          rw [hr0] at hr
          rcases List.mem_append.mp hr with h | h
          · exact h2 r h
          · simp only [List.mem_singleton] at h
            subst h
            rw [hrc]
            exact hc0
      · refine ⟨?_, ?_⟩
        · intro r hr
          rw [hp0] at hr
          exact h1 r hr
        · intro r hr
          rw [hr0] at hr
          rcases List.mem_append.mp hr with h | h
          · exact h2 r h
          · simp only [List.mem_singleton] at h
            subst h
            rw [hrc]
            exact hc0
      · refine ⟨?_, ?_⟩
        · intro r hr
          rw [hp0] at hr
          exact h1 r hr
        · intro r hr
          rw [hr0] at hr
          exact h2 r hr
    cases err with
    | none => exact ih st1 hcs key.1 key.2
    | some e => exact key

/-- Cities outside the remaining worklist never gain a hard-failure
issue. -/
theorem collectData_no_hardmsg (cfg : Settings) (world : World) (ts : String)
    (c : String) :
    ∀ (cs : List String) (st : CState),
      c ∉ cs →
      hardFailureMsg c cfg.MAX_RETRIES ∉ st.metrics.issues →
      hardFailureMsg c cfg.MAX_RETRIES ∉
        (collectData cfg world ts st cs).1.metrics.issues := by
  intro cs
  induction cs with
  | nil =>
    intro st _ h3
    exact h3
  | cons c0 cs ih =>
    intro st hnotin h3
    have hc0 : c0 ≠ c := fun h => hnotin (h ▸ List.mem_cons_self c0 cs)
    have hcs : c ∉ cs := fun h => hnotin (List.mem_cons_of_mem c0 h)
    unfold collectData
    rcases hstep : collectStep cfg world ts st c0 with ⟨st1, err⟩
    have hspec := collectStep_spec cfg world ts st c0
    rw [hstep] at hspec
    have key : hardFailureMsg c cfg.MAX_RETRIES ∉ st1.metrics.issues := by
      rcases hspec with ⟨rec, Δi0, -, -, -, -, hi0, hΔ, -⟩ |
        ⟨rec, e, -, -, -, -, hi0, -⟩ | ⟨-, -, -, hi0, -⟩
      · rw [hi0]
        intro hmem
        rcases List.mem_append.mp hmem with h | h
        · exact h3 h
        · obtain ⟨api, v, hs⟩ := hΔ _ h
          exact suspectMsg_ne_hard c0 api v c cfg.MAX_RETRIES hs.symm
      · rw [hi0]
        exact h3
      · rw [hi0]
        intro hmem
        rcases List.mem_append.mp hmem with h | h
        · exact h3 h
        · simp only [List.mem_singleton] at h
          exact hc0 (hardFailureMsg_inj h.symm)
    cases err with
    | none => exact ih st1 hcs key
    | some e => exact key


/-- The per-city dichotomy over a completed run: each city in the
(duplicate-free) worklist ends with either records appended or its
hard-failure issue logged, never both. -/
theorem collectData_xor (cfg : Settings) (world : World) (ts : String) (c : String) :
    ∀ (cs : List String) (st st' : CState),
      collectData cfg world ts st cs = (st', none) →
      c ∈ cs → cs.Nodup →
      (∀ r ∈ st.processed_data, r.city ≠ c) →
      (∀ r ∈ st.raw_data, r.city ≠ c) →
      hardFailureMsg c cfg.MAX_RETRIES ∉ st.metrics.issues →
      Xor' ((∃ r ∈ st'.processed_data, r.city = c) ∧ ∃ r ∈ st'.raw_data, r.city = c)
        (hardFailureMsg c cfg.MAX_RETRIES ∈ st'.metrics.issues) := by
  intro cs
  induction cs with
  | nil =>
    intro st st' _ hmem
    cases hmem
  | cons c0 cs ih =>
    intro st st' hrun hmem hnd h1 h2 h3
    have hnd2 := List.nodup_cons.mp hnd
    unfold collectData at hrun
    rcases hstep : collectStep cfg world ts st c0 with ⟨st1, err⟩
    rw [hstep] at hrun
    have hspec := collectStep_spec cfg world ts st c0
    rw [hstep] at hspec
    cases err with
    | some e =>
      dsimp only at hrun
      cases (Prod.mk.injEq _ _ _ _ ▸ hrun).2
    | none =>
      dsimp only at hrun
      by_cases hc0 : c0 = c
      · subst hc0
        have hc0cs : c0 ∉ cs := hnd2.1
        obtain ⟨Δp, Δr, Δi, hp, hr, hi⟩ := collectData_mono cfg world ts cs st1
        rw [hrun] at hp hr hi
        rcases hspec with ⟨rec, Δi0, -, hp0, hr0, hrc, hi0, hΔ, -⟩ |
          ⟨rec, e, he, -⟩ | ⟨-, hp0, hr0, hi0, -⟩
        · -- success at c0: record present in st', hard msg never appears
          simp only at hp0 hr0 hi0 hp hr hi
          have hmsg1 : hardFailureMsg c0 cfg.MAX_RETRIES ∉ st1.metrics.issues := by
            rw [hi0]
            intro hmem2
            rcases List.mem_append.mp hmem2 with h | h
            · exact h3 h
            · obtain ⟨api, v, hs⟩ := hΔ _ h
              exact suspectMsg_ne_hard c0 api v c0 cfg.MAX_RETRIES hs.symm
          have hmsg : hardFailureMsg c0 cfg.MAX_RETRIES ∉ st'.metrics.issues := by
            have := collectData_no_hardmsg cfg world ts c0 cs st1 hc0cs hmsg1
            rw [hrun] at this
            exact this
          left
          refine ⟨⟨⟨processRawData ts rec, ?_, ?_⟩, ⟨rec, ?_, hrc⟩⟩, hmsg⟩
          · rw [hp, hp0]
            exact List.mem_append_left _ (List.mem_append_right _ (List.mem_singleton_self _))
          · rw [processRawData_city]
            exact hrc
          · rw [hr, hr0]
            exact List.mem_append_left _ (List.mem_append_right _ (List.mem_singleton_self _))
        · cases he
        · -- exhaustion at c0: hard msg recorded, no record ever
          simp only at hp0 hr0 hi0 hp hr hi
          have hnorec := collectData_no_records cfg world ts c0 cs st1 hc0cs
            (by rw [hp0]; exact h1) (by rw [hr0]; exact h2)
          rw [hrun] at hnorec
          right
          refine ⟨?_, ?_⟩
          · rw [hi, hi0]
            exact List.mem_append_left _ (List.mem_append_right _ (List.mem_singleton_self _))
          · rintro ⟨⟨r, hrp, hrc'⟩, -⟩
            exact hnorec.1 r hrp hrc'
      · -- a different city: maintain the invariants and recurse
        have hmem2 : c ∈ cs := by
          rcases List.mem_cons.mp hmem with h | h
          · exact absurd h.symm hc0
          · exact h
        have key : (∀ r ∈ st1.processed_data, r.city ≠ c) ∧
            (∀ r ∈ st1.raw_data, r.city ≠ c) ∧
            hardFailureMsg c cfg.MAX_RETRIES ∉ st1.metrics.issues := by
          rcases hspec with ⟨rec, Δi0, -, hp0, hr0, hrc, hi0, hΔ, -⟩ |
            ⟨rec, e, he, -⟩ | ⟨-, hp0, hr0, hi0, -⟩
          · refine ⟨?_, ?_, ?_⟩
            · intro r hrr
              rw [hp0] at hrr
              rcases List.mem_append.mp hrr with h | h
              · exact h1 r h
              · simp only [List.mem_singleton] at h
                subst h
                rw [processRawData_city, hrc]
                exact hc0
            · intro r hrr
              rw [hr0] at hrr
              rcases List.mem_append.mp hrr with h | h
              · exact h2 r h
              · simp only [List.mem_singleton] at h
                subst h
                rw [hrc]
                exact hc0
            · rw [hi0]
              intro hmem3
              rcases List.mem_append.mp hmem3 with h | h
              · exact h3 h
              · obtain ⟨api, v, hs⟩ := hΔ _ h
                exact suspectMsg_ne_hard c0 api v c cfg.MAX_RETRIES hs.symm
          · cases he
          · refine ⟨?_, ?_, ?_⟩
            · intro r hrr
              rw [hp0] at hrr
              exact h1 r hrr
            · intro r hrr
              rw [hr0] at hrr
              exact h2 r hrr
            · rw [hi0]
              intro hmem3
              rcases List.mem_append.mp hmem3 with h | h
              · exact h3 h
              · simp only [List.mem_singleton] at h
                exact hc0 (hardFailureMsg_inj h.symm)
        exact ih st1 st' hrun hmem2 hnd2.2 key.1 key.2.1 key.2.2


/-- C1: for every configured location, after `collect_data` completes
(returns without an escaping exception), exactly one of the following
holds: a canonical processed record (and a raw record) was appended for
that location, or the hard-failure issue naming that location was
recorded — never both and never neither (stated as `Xor'`); moreover
`failures` equals the number of hard-failure issues in the log, so each
failure increment is paired with its issue.  The location list is assumed
duplicate-free, as a location configured twice runs twice. -/
theorem C1_exactly_one (cfg : Settings) (world : World) (ts : String) (city : String)
    (h1 : city ∈ cfg.CITIES) (h2 : cfg.CITIES.Nodup)
    (hdone : (collectData cfg world ts initState cfg.CITIES).2 = none) :
    Xor'
      ((∃ r ∈ (collectData cfg world ts initState cfg.CITIES).1.processed_data,
          r.city = city) ∧
        ∃ r ∈ (collectData cfg world ts initState cfg.CITIES).1.raw_data,
          r.city = city)
      (hardFailureMsg city cfg.MAX_RETRIES ∈
        (collectData cfg world ts initState cfg.CITIES).1.metrics.issues) ∧
    (collectData cfg world ts initState cfg.CITIES).1.metrics.failures =
      List.countP isHardIssue
        (collectData cfg world ts initState cfg.CITIES).1.metrics.issues := by
  have hrun : collectData cfg world ts initState cfg.CITIES =
      ((collectData cfg world ts initState cfg.CITIES).1, none) := by
    rw [← hdone]
  constructor
  · exact collectData_xor cfg world ts city cfg.CITIES initState
      (collectData cfg world ts initState cfg.CITIES).1 hrun h1 h2
      (by intro r hr; cases hr) (by intro r hr; cases hr)
      (by intro hmem; cases hmem)
  · exact collectData_count cfg world ts cfg.CITIES initState rfl

/-- Witness for C1: a one-city run in which every request fails, ending
in the exhaustion branch of the dichotomy. -/
theorem C1_exactly_one_witness :
    Xor'
      ((∃ r ∈ (collectData ⟨["X"], 1, 1, ["WeatherAPI"]⟩ (fun _ => .exn) "t0"
          initState (Settings.CITIES ⟨["X"], 1, 1, ["WeatherAPI"]⟩)).1.processed_data,
          r.city = "X") ∧
        ∃ r ∈ (collectData ⟨["X"], 1, 1, ["WeatherAPI"]⟩ (fun _ => .exn) "t0"
          initState (Settings.CITIES ⟨["X"], 1, 1, ["WeatherAPI"]⟩)).1.raw_data,
          r.city = "X")
      (hardFailureMsg "X" (Settings.MAX_RETRIES ⟨["X"], 1, 1, ["WeatherAPI"]⟩) ∈
        (collectData ⟨["X"], 1, 1, ["WeatherAPI"]⟩ (fun _ => .exn) "t0"
          initState (Settings.CITIES ⟨["X"], 1, 1, ["WeatherAPI"]⟩)).1.metrics.issues) ∧
    (collectData ⟨["X"], 1, 1, ["WeatherAPI"]⟩ (fun _ => .exn) "t0"
        initState (Settings.CITIES ⟨["X"], 1, 1, ["WeatherAPI"]⟩)).1.metrics.failures =
      List.countP isHardIssue
        (collectData ⟨["X"], 1, 1, ["WeatherAPI"]⟩ (fun _ => .exn) "t0"
          initState (Settings.CITIES ⟨["X"], 1, 1, ["WeatherAPI"]⟩)).1.metrics.issues :=
  C1_exactly_one ⟨["X"], 1, 1, ["WeatherAPI"]⟩ (fun _ => .exn) "t0" "X"
    (by simp) (by simp) rfl


end WeatherAgent
